import Mathlib

/-!
# Http::CurlHttpClient — request execution and retry engine

A shallow embedding of `curlhttpclient.cc` / `curlhttpclient.h` and the
properties of its natural-language specification.

Conventions of the embedding

* Texts (`Util::String`, `std::string`, `char*`, `IO::URI`) are lists of
  characters; the conversions between these representations are the identity
  on the character sequence.
* `long`, `int`, `SizeT`, `IndexT`, `CURLcode` and `Timing::Time` values are
  integers. `curRetry` never exceeds `maxRetries`, so no counter wraps.
* `HttpStatus::Code` is an integer: the source casts the `long` response code
  to it.
* Objects reached through `Ptr<...>` and the outside world (transport, thread
  stop flag, clock) are components of an explicit `World` state.
* `n_error` and a failing `n_assert` abort the call: `Except Fatal`.
* `n_warning` and `n_dbgout` only log; they have no counterpart in the state.
-/

namespace Http

/-! ## Texts -/

/-- The position of the leftmost occurrence of `pat` in `s`
(`std::string::find`); `none` stands for `std::string::npos`. -/
def strFind (pat : List Char) : List Char → Option Nat
  | [] => if pat = [] then some 0 else none
  | c :: s =>
    if pat <+: (c :: s) then some 0
    else (strFind pat s).map (· + 1)

/-- The text `s` with the `len` characters from position `pos` on replaced by
`by_` (`std::string::replace(pos, len, str)`, for `pos` within `s`). -/
def strReplace (s : List Char) (pos len : Nat) (by_ : List Char) : List Char :=
  s.take pos ++ by_ ++ s.drop (pos + len)

/-- The literal `"http://"`. -/
def httpScheme : List Char := "http://".toList

/-- The literal `"https://"`. -/
def httpsScheme : List Char := "https://".toList

/-- `CurlHttpClient::modifyUrlToHttps`. -/
def modifyUrlToHttps (httpUrlString : List Char) : List Char :=
  let httpsUrlString := httpUrlString
  match strFind httpScheme httpsUrlString with
  | some pos => strReplace httpsUrlString pos 7 httpsScheme
  | none => httpsUrlString

/-! ## Status codes -/

namespace HttpStatus

/-- Modelled from the spec: the enumerator `HttpStatus::OK` of
`http/httpstatus.h`, which is not among the sources; "OK (200)". -/
def OK : Int := 200

/-- Modelled from the spec: the enumerator `HttpStatus::NotFound`, the "not
found" slot that signals cancellation; the number of that HTTP status. -/
def NotFound : Int := 404

/-- Modelled from the spec: the enumerator `HttpStatus::BadGateway`; "Bad
Gateway (502)". -/
def BadGateway : Int := 502

/-- Modelled from the spec: the enumerator `HttpStatus::ServiceUnavailable`;
"Service Unavailable (503)". -/
def ServiceUnavailable : Int := 503

end HttpStatus

/-- `CURLE_OK` of libcurl. -/
def CURLE_OK : Int := 0

/-- `CURLE_PARTIAL_FILE` of libcurl. -/
def CURLE_PARTIAL_FILE : Int := 18

/-- Constants that the sources use and do not define: the numeric value of the
enumerator `HttpStatus::Nebula3CurlEasyPerformFailed` and the build setting
`__NEBULA3_HTTP_FILESYSTEM_INNER_RETRY_COOLDOWN__`. -/
structure Config where
  Nebula3CurlEasyPerformFailed : Int
  retryCooldown : Int

/-! ## Collaborators

The classes below are declared outside the two source files. Each is modelled
by the state its interface exposes. -/

/-- Modelled from the spec: the enumeration `HttpMethod::Code` ("enumerated:
GET, POST, PUT, ..."); the source names `Get`, `Post` and `Put` and treats
every other value in the `default` branch. -/
inductive HttpMethod where
  | Options | Get | Head | Post | Put | Delete | Trace | Connect
  | InvalidHttpMethod
  deriving DecidableEq, Repr

/-- `IO::Stream::AccessMode`. -/
inductive AccessMode where
  | ReadAccess | WriteAccess | AppendAccess | ReadWriteAccess
  deriving DecidableEq, Repr

/-- Modelled from the spec: the byte-stream collaborator `IO::Stream`, with the
contract `setAccessMode`, `open() -> bool`, `close()`, `map() -> pointer`,
`unmap()`, `setSize(n)`, `write(ptr, len)`, `getSize()`, `getMediaType()`.
`canOpen` and `canMap` say whether `Open()` succeeds and whether `Map()`
yields a non-null pointer. -/
structure Stream where
  accessMode : AccessMode
  isOpen : Bool
  isMapped : Bool
  content : List Nat
  mediaType : List Char
  canOpen : Bool
  canMap : Bool
  deriving DecidableEq, Repr

namespace Stream

/-- `Stream::SetAccessMode`. -/
def SetAccessMode (s : Stream) (m : AccessMode) : Stream :=
  { s with accessMode := m }

/-- `Stream::Open`: the answer and the stream afterwards. -/
def Open (s : Stream) : Bool × Stream :=
  if s.canOpen then (true, { s with isOpen := true }) else (false, s)

/-- `Stream::Close`. -/
def Close (s : Stream) : Stream :=
  { s with isOpen := false }

/-- `Stream::IsOpen`. -/
def IsOpen (s : Stream) : Bool := s.isOpen

/-- `Stream::Map`: `none` is the null pointer. -/
def Map (s : Stream) : Option (List Nat) × Stream :=
  if s.canMap then (some s.content, { s with isMapped := true }) else (none, s)

/-- `Stream::Unmap`. -/
def Unmap (s : Stream) : Stream :=
  { s with isMapped := false }

/-- `Stream::GetSize`. -/
def GetSize (s : Stream) : Int := s.content.length

/-- `Stream::SetSize`: truncate, or extend with zero bytes. -/
def SetSize (s : Stream) (n : Nat) : Stream :=
  { s with content := s.content.take n ++ List.replicate (n - s.content.length) 0 }

/-- `Stream::Write(ptr, numBytes)`: append the first `numBytes` bytes at `ptr`. -/
def Write (s : Stream) (ptr : List Nat) (numBytes : Nat) : Stream :=
  { s with content := s.content ++ ptr.take numBytes }

/-- `Stream::GetMediaType`. -/
def GetMediaType (s : Stream) : List Char := s.mediaType

end Stream

/-- `Util::String::IsValid`: the text is not empty. -/
def IsValid (s : List Char) : Bool := !s.isEmpty

/-- `Util::String::Format` with one `%d` argument. -/
def formatD (pre : List Char) (n : Int) : List Char :=
  pre ++ (toString n).toList

/-- `Util::String::Format` with one `%s` argument. -/
def formatS (pre : List Char) (s : List Char) : List Char :=
  pre ++ s

/-- Modelled from the spec: the request descriptor `HttpRequestWriter`
(method, target URI, optional cache-control max-age, optional auth token). Its
content stream is an object of its own and lives in the `World`. -/
structure HttpRequestWriter where
  method : HttpMethod
  uri : List Char
  cacheControlMaxAge : Int
  xAuthToken : List Char
  deriving DecidableEq, Repr

/-- `Timing::Timer`: whether it runs, and the reading `GetTime()` returns. -/
structure Timer where
  running : Bool
  time : Int
  deriving DecidableEq, Repr

namespace Timer

/-- `Timer::Running`. -/
def Running (t : Timer) : Bool := t.running

/-- `Timer::Start`. -/
def Start (t : Timer) : Timer := { t with running := true }

/-- `Timer::Stop`. -/
def Stop (t : Timer) : Timer := { t with running := false }

/-- `Timer::GetTime`. -/
def GetTime (t : Timer) : Int := t.time

/-- The passage of `d` units of time: a running timer advances. -/
def elapse (t : Timer) (d : Int) : Timer :=
  if t.running then { t with time := t.time + d } else t

end Timer

/-- The options of a libcurl easy handle that the client sets; `none` is the
library default. -/
structure CurlHandle where
  NOSIGNAL : Option Int := none
  NOPROGRESS : Option Int := none
  FOLLOWLOCATION : Option Int := none
  COOKIEFILE : Option (List Char) := none
  ERRORBUFFER : Bool := false
  WRITEFUNCTION : Bool := false
  USERAGENT : Option (List Char) := none
  URL : Option (List Char) := none
  SSL_VERIFYPEER : Option Bool := none
  SSL_VERIFYHOST : Option Bool := none
  LOW_SPEED_LIMIT : Option Int := none
  LOW_SPEED_TIME : Option Int := none
  HTTPGET : Option Int := none
  POST : Option Int := none
  CUSTOMREQUEST : Option (List Char) := none
  HTTPHEADER : List (List Char) := []
  POSTFIELDS : Option (List Nat) := none
  POSTFIELDSIZE : Option Int := none
  WRITEDATA : Bool := false
  deriving DecidableEq, Repr

/-- One call of the write callback by the transport: `ptr`, `size`, `nmemb`. -/
structure Chunk where
  ptr : List Nat
  size : Nat
  nmemb : Nat
  deriving DecidableEq, Repr

/-- Modelled from the spec: one exchange of the external TransportPrimitive,
"perform(request) -> (transportResult, httpStatus, effectiveURL,
redirectCount)": the chunks it delivers to the write callback, the result of
`curl_easy_perform`, the values and result codes of the three
`curl_easy_getinfo` queries, and the time the exchange takes. -/
structure Exchange where
  chunks : List Chunk
  performResult : Int
  responseCode : Int
  effectiveUrlResult : Int
  effectiveUrl : Option (List Char)
  redirectCountResult : Int
  redirectCount : Int
  duration : Int
  deriving DecidableEq, Repr

/-- What the outside world can observe of a run: an exchange of the transport,
with the options of the handle and the content of the response stream at its
start, and a sleep of the calling thread. -/
inductive Event where
  | perform (request : CurlHandle) (sinkAtStart : List Nat) (x : Exchange)
  | sleep (duration : Int)
  deriving DecidableEq, Repr

/-- The fatal errors (`n_error`, failing `n_assert`). -/
inductive Fatal where
  | alreadyConnected
  | unsupportedMethod
  | noHeaders
  | openResponseFailed
  | connectFailed
  | bodyNotValid
  deriving DecidableEq, Repr

/-- The member variables of `CurlHttpClient`. -/
structure CurlHttpClient where
  fillResponseContentStreamOnError : Bool
  cancelOnThreadStopRequested : Bool
  serverUri : List Char
  effectiveServerUrl : List Char
  recvTimeout : Int
  curlHandle : Option CurlHandle
  idleTimer : Timer
  lastRequestTime : Int
  redirectResponseCount : Int
  deriving DecidableEq, Repr

/-- The client, the objects it works on, and the outside world: the two
streams, the number of live `curl_slist` nodes, the exchanges the transport
will perform from now on, the answers `Thread::GetMyThreadStopRequested()`
will give from now on, and the events so far. -/
structure World where
  client : CurlHttpClient
  responseContentStream : Stream
  requestContentStream : Option Stream
  slistNodes : Nat
  transport : Nat → Exchange
  stopRequested : Nat → Bool
  trace : List Event

/-! ## State updates

Every assignment of the source is one application of one of the functions
below to the state before it. -/

namespace CurlHttpClient

/-- `curl_easy_setopt(this->curlHandle, ...)`. -/
@[simps]
def setopt (c : CurlHttpClient) (f : CurlHandle → CurlHandle) : CurlHttpClient :=
  { c with curlHandle := c.curlHandle.map f }

/-- `this->serverUri = uri; this->effectiveServerUrl = uri;`. -/
@[simps]
def storeUri (c : CurlHttpClient) (uri : List Char) : CurlHttpClient :=
  { c with serverUri := uri, effectiveServerUrl := uri }

/-- `this->curlHandle = curl_easy_init();` — the library yields a fresh handle. -/
@[simps]
def easyInit (c : CurlHttpClient) : CurlHttpClient :=
  { c with curlHandle := some {} }

/-- `this->curlHandle = 0;`. -/
@[simps]
def clearHandle (c : CurlHttpClient) : CurlHttpClient :=
  { c with curlHandle := none }

/-- An operation on `this->idleTimer`. -/
@[simps]
def mapTimer (c : CurlHttpClient) (f : Timer → Timer) : CurlHttpClient :=
  { c with idleTimer := f c.idleTimer }

/-- `this->lastRequestTime = this->idleTimer.GetTime();`. -/
@[simps]
def stampLastRequestTime (c : CurlHttpClient) : CurlHttpClient :=
  { c with lastRequestTime := c.idleTimer.GetTime }

/-- `this->effectiveServerUrl = IO::URI(effectiveUrl);`. -/
@[simps]
def setEffectiveServerUrl (c : CurlHttpClient) (effectiveUrl : List Char) : CurlHttpClient :=
  { c with effectiveServerUrl := effectiveUrl }

/-- `this->redirectResponseCount = redirectCount;`. -/
@[simps]
def setRedirectResponseCount (c : CurlHttpClient) (redirectCount : Int) : CurlHttpClient :=
  { c with redirectResponseCount := redirectCount }

end CurlHttpClient

namespace World

/-- An update of the client. -/
@[simps]
def mapClient (w : World) (f : CurlHttpClient → CurlHttpClient) : World :=
  { w with client := f w.client }

/-- An operation on the response content stream. -/
@[simps]
def mapResponse (w : World) (f : Stream → Stream) : World :=
  { w with responseContentStream := f w.responseContentStream }

/-- An operation on the request content stream. -/
@[simps]
def mapRequest (w : World) (f : Stream → Stream) : World :=
  { w with requestContentStream := w.requestContentStream.map f }

/-- `curl_easy_setopt(this->curlHandle, ...)`. -/
@[simp]
def setopt (w : World) (f : CurlHandle → CurlHandle) : World :=
  w.mapClient fun c => c.setopt f

/-- The allocation of `n` nodes of a `curl_slist`. -/
@[simps]
def allocSlist (w : World) (n : Nat) : World :=
  { w with slistNodes := w.slistNodes + n }

/-- The release of `n` nodes of a `curl_slist`. -/
@[simps]
def freeSlist (w : World) (n : Nat) : World :=
  { w with slistNodes := w.slistNodes - n }

/-- An event becomes observable. -/
@[simps]
def record (w : World) (e : Event) : World :=
  { w with trace := w.trace ++ [e] }

/-- The transport has performed its next exchange. -/
@[simps]
def nextExchange (w : World) : World :=
  { w with transport := fun i => w.transport (i + 1) }

/-- The stop flag of the thread has been polled. -/
@[simps]
def nextPoll (w : World) : World :=
  { w with stopRequested := fun i => w.stopRequested (i + 1) }

/-- The passage of time, seen by the client's idle timer. -/
@[simp]
def elapse (w : World) (d : Int) : World :=
  w.mapClient fun c => c.mapTimer fun t => t.elapse d

end World

/-! ## The client -/

namespace CurlHttpClient

/-- The state the constructor `CurlHttpClient::CurlHttpClient()` leaves. -/
def new : CurlHttpClient :=
  { fillResponseContentStreamOnError := false
    cancelOnThreadStopRequested := true
    serverUri := []
    effectiveServerUrl := []
    recvTimeout := 0
    curlHandle := none
    idleTimer := { running := false, time := 0 }
    lastRequestTime := 0
    redirectResponseCount := 0 }

/-- `CurlHttpClient::IsConnected`. -/
def IsConnected (c : CurlHttpClient) : Bool := c.curlHandle.isSome

/-- The block of `Connect` that sets the low-speed abort threshold. -/
def setLowSpeed (c : CurlHttpClient) : CurlHttpClient :=
  let curlTimeout := c.recvTimeout
  if curlTimeout > 0 then
    -- this basically checks whether the connection has been interrupted
    (c.setopt fun h => { h with LOW_SPEED_LIMIT := some 50 }).setopt
      fun h => { h with LOW_SPEED_TIME := some curlTimeout }
  else c

/-- The block "setup idle timer stuff" of `Connect`, up to the start of the
timer. -/
def startIdleTimer (c : CurlHttpClient) : CurlHttpClient :=
  if !c.idleTimer.Running then c.mapTimer Timer.Start else c

/-- `CurlHttpClient::Connect`. -/
def Connect (c : CurlHttpClient) (uri : List Char) : Except Fatal (Bool × CurlHttpClient) :=
  if c.IsConnected then .error Fatal.alreadyConnected
  else
    -- store the connection url
    let c := c.storeUri uri
    let c := c.easyInit
    -- set some general options for this curl handle
    let c := c.setopt fun h => { h with NOSIGNAL := some 1 }
    let c := c.setopt fun h => { h with NOPROGRESS := some 1 }
    let c := c.setopt fun h => { h with FOLLOWLOCATION := some 1 }
    let c := c.setopt fun h => { h with COOKIEFILE := some [] }
    let c := c.setopt fun h => { h with ERRORBUFFER := true }
    let c := c.setopt fun h => { h with WRITEFUNCTION := true }
    let c := c.setopt fun h => { h with USERAGENT := some "Mozilla".toList }
    let c := c.setopt fun h => { h with URL := some uri }
    let c := c.setopt fun h => { h with SSL_VERIFYPEER := some false }
    let c := c.setopt fun h => { h with SSL_VERIFYHOST := some false }
    let c := c.setLowSpeed
    -- setup idle timer stuff
    let c := c.startIdleTimer
    let c := c.stampLastRequestTime
    .ok (true, c)

/-- `CurlHttpClient::Disconnect`. -/
def Disconnect (c : CurlHttpClient) : CurlHttpClient :=
  let c := if c.idleTimer.Running then c.mapTimer Timer.Stop else c
  if c.IsConnected then c.clearHandle else c

/-- `CurlHttpClient::GetIdleTime`. -/
def GetIdleTime (c : CurlHttpClient) : Int :=
  c.idleTimer.GetTime - c.lastRequestTime

/-- `CurlHttpClient::GetEffectiveUrl`. -/
def GetEffectiveUrl (c : CurlHttpClient) : List Char := c.effectiveServerUrl

/-- `CurlHttpClient::GetRedirectCount`. -/
def GetRedirectCount (c : CurlHttpClient) : Int := c.redirectResponseCount

/-- `CurlHttpClient::CurlWriteData`: the number of bytes accepted and the
stream (the user data) afterwards. -/
def CurlWriteData (ptr : List Nat) (size nmemb : Nat) (userdata : Stream) : Nat × Stream :=
  let numBytes := size * nmemb
  if numBytes > 0 then
    (numBytes, userdata.Write ptr numBytes)
  else
    (0, userdata)

end CurlHttpClient

open CurlHttpClient

/-- The response stream after the write callback has been handed the chunks in
turn. -/
def deliver (chunks : List Chunk) (sink : Stream) : Stream :=
  chunks.foldl (fun s ch => (CurlWriteData ch.ptr ch.size ch.nmemb s).2) sink

/-- The effect of `curl_easy_perform(this->curlHandle)` on the world: the
transport performs its next exchange and hands the received chunks to the
write callback (`Connect` installs `CurlWriteData` on every handle it creates)
when the user data of the callback is set. -/
def World.exchange (w : World) : World :=
  let x := w.transport 0
  let h := w.client.curlHandle.getD {}
  let e := Event.perform h w.responseContentStream.content x
  let w := if h.WRITEDATA then w.mapResponse (deliver x.chunks) else w
  ((w.record e).nextExchange).elapse x.duration

/-- `curl_easy_perform(this->curlHandle)`. The exchange is returned for the
`curl_easy_getinfo` queries that follow. -/
def curl_easy_perform (w : World) : Exchange × World :=
  (w.transport 0, w.exchange)

/-- `n_sleep(duration)`. -/
def n_sleep (w : World) (d : Int) : World :=
  (w.record (Event.sleep d)).elapse d

/-- `Threading::Thread::GetMyThreadStopRequested()`. -/
def GetMyThreadStopRequested (w : World) : Bool × World :=
  (w.stopRequested 0, w.nextPoll)

/-- `curl_slist_append`. -/
def curl_slist_append (l : List (List Char)) (s : List Char) : List (List Char) :=
  l ++ [s]

/-- The header fields of `InternalSendRequest` ("setup the HTTP header
fields"), in the order in which they are appended. -/
def buildHeaders (requestWriter : HttpRequestWriter) (requestContentStream : Option Stream) :
    List (List Char) :=
  let maxAgeHeader : List Char :=
    if requestWriter.cacheControlMaxAge > 0 then
      formatD "Cache-Control: max-age=".toList requestWriter.cacheControlMaxAge
    else []
  let contentTypeHeader : List Char :=
    match requestContentStream with
    | some rcs =>
      if IsValid rcs.GetMediaType then formatS "Content-Type: ".toList rcs.GetMediaType else []
    | none => []
  let contentLengthHeader : List Char :=
    match requestContentStream with
    | some rcs => formatD "Content-Length: ".toList rcs.GetSize
    | none => "Content-Length: 0".toList
  let headers : List (List Char) := []
  let headers := if IsValid maxAgeHeader then curl_slist_append headers maxAgeHeader else headers
  let headers :=
    if IsValid contentTypeHeader then curl_slist_append headers contentTypeHeader else headers
  let headers :=
    if IsValid contentLengthHeader then curl_slist_append headers contentLengthHeader else headers
  let headers :=
    if IsValid requestWriter.xAuthToken then
      curl_slist_append headers (formatS "X-Auth-Token: ".toList requestWriter.xAuthToken)
    else headers
  let headers := curl_slist_append headers "Connection: keep-alive".toList
  let headers := curl_slist_append headers "Keep-Alive: 300".toList
  headers

/-- The block "first make sure we're connected" of `InternalSendRequest`. -/
def ensureConnected (requestWriter : HttpRequestWriter) (w : World) : Except Fatal World :=
  if !w.client.IsConnected then
    match w.client.Connect requestWriter.uri with
    | .error e => .error e
    | .ok (connectResult, c) =>
      if connectResult then .ok (w.mapClient fun _ => c) else .error Fatal.connectFailed
  else .ok w

/-- The blocks "set URL in curl" and "set HTTP method in curl" of
`InternalSendRequest`. -/
def setUrlAndMethod (requestWriter : HttpRequestWriter) (w : World) : Except Fatal World :=
  let httpUrlString := requestWriter.uri
  let httpsUrlString := modifyUrlToHttps httpUrlString
  let w := w.setopt fun h => { h with URL := some httpsUrlString }
  match requestWriter.method with
  | HttpMethod.Get => .ok (w.setopt fun h => { h with HTTPGET := some 1 })
  | HttpMethod.Post => .ok (w.setopt fun h => { h with POST := some 1 })
  | HttpMethod.Put => .ok (w.setopt fun h => { h with CUSTOMREQUEST := some "PUT".toList })
  | _ => .error Fatal.unsupportedMethod

/-- The block "setup the HTTP header fields" of `InternalSendRequest`, up to
`curl_easy_setopt(..., CURLOPT_HTTPHEADER, headers)`. -/
def setupHeaders (requestWriter : HttpRequestWriter) (w : World) :
    Except Fatal (List (List Char) × World) :=
  let headers := buildHeaders requestWriter w.requestContentStream
  if headers = [] then .error Fatal.noHeaders
  else .ok (headers, (w.allocSlist headers.length).setopt fun h => { h with HTTPHEADER := headers })

/-- The request content stream of the block "if POST is used, set the data to
post": the mapped body (`postData`, `none` for the null pointer), its size,
and the stream afterwards. -/
def openBody (rcs : Stream) : Option (List Nat) × Int × Stream :=
  let rcs := rcs.SetAccessMode AccessMode.ReadAccess
  if rcs.Open.1 then
    let rcs := rcs.Open.2
    let postDataSize := rcs.GetSize
    (rcs.Map.1, postDataSize, rcs.Map.2)
  else (none, 0, rcs.Open.2)

/-- The block "if POST is used, set the data to post" of `InternalSendRequest`:
`postData` and the world afterwards. -/
def attachBody (requestWriter : HttpRequestWriter) (w : World) : Option (List Nat) × World :=
  if requestWriter.method = HttpMethod.Post ∨ requestWriter.method = HttpMethod.Put then
    let postData : Option (List Nat) := w.requestContentStream.bind fun rcs => (openBody rcs).1
    let postDataSize : Int := (w.requestContentStream.map fun rcs => (openBody rcs).2.1).getD 0
    let w := w.mapRequest fun rcs => (openBody rcs).2.2
    if postData.isSome then
      (postData,
        (w.setopt fun h => { h with POSTFIELDS := postData }).setopt
          fun h => { h with POSTFIELDSIZE := some postDataSize })
    else
      (postData,
        (w.setopt fun h => { h with POSTFIELDSIZE := some 0 }).setopt
          fun h => { h with POSTFIELDS := none })
  else (none, w)

/-- The block "take care of the received data..." of `InternalSendRequest`. -/
def openResponse (w : World) : Except Fatal World :=
  let w := w.mapResponse fun s => s.SetAccessMode AccessMode.WriteAccess
  if !w.responseContentStream.Open.1 then .error Fatal.openResponseFailed
  else .ok ((w.mapResponse fun s => s.Open.2).setopt fun h => { h with WRITEDATA := true })

/-- The outcome classification of `InternalSendRequest`: the unified status
for the result of `curl_easy_perform` and the reported response code. -/
def classify (K : Config) (performResult curlHttpCode : Int) : Int :=
  let httpStatus := curlHttpCode
  if CURLE_PARTIAL_FILE = performResult then
    httpStatus
  else if 0 ≠ performResult then
    if HttpStatus.OK = curlHttpCode ∨ 0 = curlHttpCode then
      K.Nebula3CurlEasyPerformFailed
    else httpStatus
  else httpStatus

/-- The block "get effective url for redirects" of `InternalSendRequest`. -/
def updateEffectiveUrl (x : Exchange) (c : CurlHttpClient) : CurlHttpClient :=
  match x.effectiveUrl with
  | some effectiveUrl =>
    if CURLE_OK = x.effectiveUrlResult then c.setEffectiveServerUrl effectiveUrl else c
  | none => c

/-- The block "get redirect count" of `InternalSendRequest`. -/
def updateRedirectCount (x : Exchange) (c : CurlHttpClient) : CurlHttpClient :=
  if CURLE_OK = x.redirectCountResult then c.setRedirectResponseCount x.redirectCount else c

/-- The response stream of the block "perform cleanup". -/
def closeResponse (w : World) : World :=
  if w.responseContentStream.IsOpen then w.mapResponse Stream.Close else w

/-- The request stream of the block "perform cleanup". -/
def releaseBody (postData : Option (List Nat)) (w : World) : Except Fatal World :=
  if postData.isSome then
    if w.requestContentStream.isSome then .ok (w.mapRequest fun rcs => rcs.Unmap.Close)
    else .error Fatal.bodyNotValid
  else .ok w

/-- The header list of the block "perform cleanup". -/
def freeHeaders (headers : List (List Char)) (w : World) : World :=
  if headers ≠ [] then w.freeSlist headers.length else w

/-- The block "perform cleanup" of `InternalSendRequest`. -/
def cleanup (postData : Option (List Nat)) (headers : List (List Char)) (w : World) :
    Except Fatal World :=
  let w := w.setopt fun h => { h with WRITEDATA := false }
  let w := closeResponse w
  match releaseBody postData w with
  | .error e => .error e
  | .ok w => .ok (freeHeaders headers w)

/-- `CurlHttpClient::InternalSendRequest`: one attempt. -/
def InternalSendRequest (K : Config) (requestWriter : HttpRequestWriter) (w : World) :
    Except Fatal (Int × World) :=
  -- first make sure we are connected
  match ensureConnected requestWriter w with
  | .error e => .error e
  | .ok w =>
  -- set URL in curl, set HTTP method in curl
  match setUrlAndMethod requestWriter w with
  | .error e => .error e
  | .ok w =>
  -- setup the HTTP header fields
  match setupHeaders requestWriter w with
  | .error e => .error e
  | .ok (headers, w) =>
  -- if POST is used, set the data to post
  match attachBody requestWriter w with
  | (postData, w) =>
  -- take care of the received data...
  match openResponse w with
  | .error e => .error e
  | .ok w =>
  -- finally, perform the HTTP request and get the HTTP status code back
  match curl_easy_perform w with
  | (x, w) =>
  let performResult := x.performResult
  let curlHttpCode := x.responseCode
  let httpStatus := classify K performResult curlHttpCode
  -- get effective url for redirects
  let w := w.mapClient (updateEffectiveUrl x)
  -- get redirect count
  let w := w.mapClient (updateRedirectCount x)
  -- perform cleanup
  match cleanup postData headers w with
  | .error e => .error e
  | .ok w => .ok (httpStatus, w)

/-- The retry condition of `SendRequest`: the request has failed with a
"common error". -/
def isRetryStatus (K : Config) (httpStatus : Int) : Bool :=
  httpStatus == HttpStatus.ServiceUnavailable || httpStatus == HttpStatus.BadGateway ||
    httpStatus == K.Nebula3CurlEasyPerformFailed

/-- The check of the stop flag in the loop of `SendRequest`: whether the
thread was requested to stop, polled only if `cancelOnThreadStopRequested` is
set. -/
def pollStop (w : World) : Bool × World :=
  if w.client.cancelOnThreadStopRequested then GetMyThreadStopRequested w else (false, w)

/-- The `while` loop of `SendRequest` together with the two statements after
it. `fuel` bounds the number of iterations; `none` means it did not suffice. -/
def retryLoop (K : Config) (requestWriter : HttpRequestWriter) (maxRetries : Int) :
    Nat → Int → Int → World → Option (Except Fatal (Int × World))
  | fuel, curRetry, httpStatus, w =>
    if isRetryStatus K httpStatus && decide (curRetry < maxRetries) then
      match fuel with
      | 0 => none
      | fuel + 1 =>
        let w := n_sleep w K.retryCooldown
        let curRetry := curRetry + 1
        -- n_warning("... request '%s' failed with '%s', retry %d of %d...")
        match pollStop w with
        | (true, w) =>
          -- just "abuse" a NotFound http status
          some (.ok (HttpStatus.NotFound, w))
        | (false, w) =>
          -- discard any partially received data and try again...
          let w := w.mapResponse fun s => s.SetSize 0
          match InternalSendRequest K requestWriter w with
          | .error e => some (.error e)
          | .ok (httpStatus, w) => retryLoop K requestWriter maxRetries fuel curRetry httpStatus w
    else
      some (.ok (httpStatus, w.mapClient stampLastRequestTime))

/-- `CurlHttpClient::SendRequest(requestWriter, responseContentStream,
maxRetries)`. The loop runs at most `maxRetries` times, so that much fuel
suffices. -/
def SendRequest (K : Config) (requestWriter : HttpRequestWriter) (maxRetries : Int) (w : World) :
    Option (Except Fatal (Int × World)) :=
  let curRetry : Int := 0
  -- Timing::Time retrySleepDuration = __NEBULA3_HTTP_FILESYSTEM_INNER_RETRY_COOLDOWN__
  match InternalSendRequest K requestWriter w with
  | .error e => some (.error e)
  | .ok (httpStatus, w) => retryLoop K requestWriter maxRetries maxRetries.toNat curRetry httpStatus w

/-! ## Notions used in the statements -/

/-- The bytes the write callback stores for a list of chunks. -/
def written (chunks : List Chunk) : List Nat :=
  chunks.flatMap fun ch => ch.ptr.take (ch.size * ch.nmemb)

/-- The unified status of the attempt that performs the exchange `x`. -/
def attemptStatus (K : Config) (x : Exchange) : Int :=
  classify K x.performResult x.responseCode

/-- The methods `InternalSendRequest` supports. -/
def HttpMethod.supported : HttpMethod → Bool
  | .Get | .Post | .Put => true
  | _ => false

/-- What every block of an attempt other than the exchange leaves alone. -/
structure Kept (w w' : World) : Prop where
  transport : ∀ i, w'.transport i = w.transport i
  stopRequested : ∀ i, w'.stopRequested i = w.stopRequested i
  trace : w'.trace = w.trace
  content : w'.responseContentStream.content = w.responseContentStream.content
  canOpen : w'.responseContentStream.canOpen = w.responseContentStream.canOpen
  cancel : w'.client.cancelOnThreadStopRequested = w.client.cancelOnThreadStopRequested
  connected : w.client.IsConnected = true → w'.client.IsConnected = true

/-- What every block of an attempt other than the connect step and the two
`curl_easy_getinfo` blocks leaves alone. -/
structure KeptUrl (w w' : World) : Prop where
  effective : w'.client.effectiveServerUrl = w.client.effectiveServerUrl
  redirect : w'.client.redirectResponseCount = w.client.redirectResponseCount

/-- The effective URL after an attempt that performs the exchange `x`, for the
effective URL `base` after the connect step. -/
def effectiveUrlAfter (x : Exchange) (base : List Char) : List Char :=
  match x.effectiveUrl with
  | some effectiveUrl => if CURLE_OK = x.effectiveUrlResult then effectiveUrl else base
  | none => base

/-- An event without the options of the handle. -/
inductive Step where
  | attempt (sinkAtStart : List Nat) (x : Exchange)
  | sleep (duration : Int)
  deriving DecidableEq, Repr

/-- The step an event stands for. -/
def Event.step : Event → Step
  | .perform _ sinkAtStart x => Step.attempt sinkAtStart x
  | .sleep d => Step.sleep d

/-- The exchange of an attempt. -/
def Step.exchangeOf : Step → Option Exchange
  | .attempt _ x => some x
  | .sleep _ => none

/-- Whether a step is a sleep. -/
def Step.isSleep : Step → Bool
  | .attempt _ _ => false
  | .sleep _ => true

/-- The exchanges of the attempts among the events, in order. -/
def exchangesOf (es : List Event) : List Exchange :=
  (es.map Event.step).filterMap Step.exchangeOf

/-- The number of attempts among the events. -/
def attemptCount (es : List Event) : Nat := (exchangesOf es).length

/-- The number of sleeps among the events. -/
def sleepCount (es : List Event) : Nat := (es.map Event.step).countP Step.isSleep

/-- The steps of `j` retries that perform the exchanges `t 0`, `t 1`, ...: each
retry is a cooldown sleep followed by an attempt that starts with an empty
response stream. -/
def retrySteps (cooldown : Int) (t : Nat → Exchange) (j : Nat) : List Step :=
  (List.range j).flatMap fun i => [Step.sleep cooldown, Step.attempt [] (t i)]

/-- The status the loop of `SendRequest` tests before its `i`-th iteration: the
status `httpStatus` it starts with, then the statuses of the attempts that
perform the exchanges `t 0`, `t 1`, ... -/
def statusAt (K : Config) (httpStatus : Int) (t : Nat → Exchange) : Nat → Int
  | 0 => httpStatus
  | i + 1 => attemptStatus K (t i)

/-- No stop request is observed: the client does not poll the stop flag, or
every answer it gets is negative. -/
def NoStopObserved (w : World) : Prop :=
  w.client.cancelOnThreadStopRequested = true → ∀ i, w.stopRequested i = false

/-- The status a call of `SendRequest` returns, if it returns one. -/
def statusOf : Option (Except Fatal (Int × World)) → Option Int
  | some (.ok (httpStatus, _)) => some httpStatus
  | _ => none

/-- The world a call of `SendRequest` leaves, if it returns. -/
def worldOf : Option (Except Fatal (Int × World)) → Option World
  | some (.ok (_, w)) => some w
  | _ => none

/-- The world an attempt leaves, if it returns. -/
def attemptWorldOf : Except Fatal (Int × World) → Option World
  | .ok (_, w) => some w
  | .error _ => none

/-! ## Concrete inputs -/

/-- An instance of the constants: 1000 for the synthetic status, a cooldown of
5 time units. -/
def sampleConfig : Config := ⟨1000, 5⟩

/-- An exchange that succeeds with the response code `code`, delivers the four
bytes `1 2 3` and `9` in two chunks and takes one unit of time. -/
def sampleExchange (code : Int) : Exchange :=
  { chunks := [⟨[1, 2, 3], 1, 3⟩, ⟨[9], 1, 1⟩]
    performResult := 0
    responseCode := code
    effectiveUrlResult := 0
    effectiveUrl := some "https://a/b".toList
    redirectCountResult := 0
    redirectCount := 0
    duration := 1 }

/-- A closed response stream that holds two stale bytes and can be opened. -/
def sampleSink : Stream :=
  { accessMode := AccessMode.ReadAccess
    isOpen := false
    isMapped := false
    content := [7, 7]
    mediaType := []
    canOpen := true
    canMap := true }

/-- A freshly constructed client, the sample response stream, no request body,
and the given transport and stop flag. -/
def sampleWorld (transport : Nat → Exchange) (stopRequested : Nat → Bool) : World :=
  { client := CurlHttpClient.new
    responseContentStream := sampleSink
    requestContentStream := none
    slistNodes := 0
    transport := transport
    stopRequested := stopRequested
    trace := [] }

/-- The request `GET http://a/b`. -/
def sampleRequest : HttpRequestWriter :=
  { method := HttpMethod.Get, uri := "http://a/b".toList, cacheControlMaxAge := 0, xAuthToken := [] }

/-- The idle timer runs exactly while the session is connected. Every session
the constructor and the member functions produce is in such a state. -/
def CurlHttpClient.TimerFollowsHandle (c : CurlHttpClient) : Prop :=
  c.idleTimer.Running = c.IsConnected

/-- The header list as the specification describes it, in its order:
`Cache-Control: max-age=<n>` if the max-age `n` is positive, `Content-Type:
<media type>` if a body is present and declares a media type, `Content-Length:
<size>` with the size of the body, or 0 without a body, `X-Auth-Token: <token>`
if a token is present, `Connection: keep-alive`, `Keep-Alive: 300`. -/
def specHeaders (requestWriter : HttpRequestWriter) (body : Option Stream) :
    List (List Char) :=
  (if requestWriter.cacheControlMaxAge > 0 then
      ["Cache-Control: max-age=".toList ++ (toString requestWriter.cacheControlMaxAge).toList]
    else []) ++
  (match body with
    | some b => if b.mediaType ≠ [] then ["Content-Type: ".toList ++ b.mediaType] else []
    | none => []) ++
  ["Content-Length: ".toList ++
    (toString (match body with
      | some b => (b.content.length : Int)
      | none => 0)).toList] ++
  (if requestWriter.xAuthToken ≠ [] then ["X-Auth-Token: ".toList ++ requestWriter.xAuthToken]
    else []) ++
  ["Connection: keep-alive".toList, "Keep-Alive: 300".toList]

/-- A closed request body of three bytes with the media type `text/plain`,
which can be opened; `canMap` says whether `Map()` yields a non-null pointer. -/
def sampleBody (canMap : Bool) : Stream :=
  { accessMode := AccessMode.ReadAccess
    isOpen := false
    isMapped := false
    content := [4, 5, 6]
    mediaType := "text/plain".toList
    canOpen := true
    canMap := canMap }

/-- The request `POST http://a/b` with the max-age 60 and the token `t`. -/
def samplePost : HttpRequestWriter :=
  { method := HttpMethod.Post
    uri := "http://a/b".toList
    cacheControlMaxAge := 60
    xAuthToken := "t".toList }

/-! ## The URL rewrite -/

theorem httpScheme_eq : httpScheme = ['h', 't', 't', 'p', ':', '/', '/'] := by decide

theorem httpsScheme_eq : httpsScheme = ['h', 't', 't', 'p', 's', ':', '/', '/'] := by decide

theorem strFind_some (pat : List Char) :
    ∀ (s : List Char) (p : Nat), strFind pat s = some p →
      ∃ a b, s = a ++ pat ++ b ∧ a.length = p ∧
        ∀ a' b', s = a' ++ pat ++ b' → p ≤ a'.length := by
  intro s
  induction s with
  | nil =>
    intro p h
    by_cases hp : pat = []
    · simp [strFind, hp] at h
      exact ⟨[], [], by simp [hp], by simp [h], fun _ _ _ => by omega⟩
    · simp [strFind, hp] at h
  | cons c s ih =>
    intro p h
    by_cases hpre : pat <+: (c :: s)
    · simp only [strFind, hpre, if_true, Option.some.injEq] at h
      obtain ⟨b, hb⟩ := hpre
      exact ⟨[], b, by simp [hb], by simp [h], fun _ _ _ => by omega⟩
    · simp only [strFind, hpre, if_false, Option.map_eq_some'] at h
      obtain ⟨p', hp', rfl⟩ := h
      obtain ⟨a, b, hs, ha, hmin⟩ := ih p' hp'
      refine ⟨c :: a, b, by simp [hs], by simp [ha], ?_⟩
      intro a' b' h'
      cases a' with
      | nil => exact absurd ⟨b', by simpa using h'.symm⟩ hpre
      | cons c' a'' =>
        simp only [List.cons_append, List.cons.injEq] at h'
        have := hmin a'' b' h'.2
        simp only [List.length_cons]
        omega

theorem strFind_none (pat : List Char) :
    ∀ (s : List Char), strFind pat s = none → ∀ a b, s ≠ a ++ pat ++ b := by
  intro s
  induction s with
  | nil =>
    intro h a b hab
    have hp : pat = [] := by
      have := congrArg List.length hab
      simp only [List.length_nil, List.length_append] at this
      exact List.length_eq_zero.mp (by omega)
    simp [strFind, hp] at h
  | cons c s ih =>
    intro h a b hab
    by_cases hpre : pat <+: (c :: s)
    · simp [strFind, hpre] at h
    · simp only [strFind, hpre, if_false, Option.map_eq_none'] at h
      cases a with
      | nil => exact hpre ⟨b, by simpa using hab.symm⟩
      | cons c' a' =>
        simp only [List.cons_append, List.cons.injEq] at hab
        exact ih h a' b hab.2

theorem modifyUrlToHttps_of_find (s : List Char) (p : Nat)
    (h : strFind httpScheme s = some p) :
    ∃ a b, s = a ++ httpScheme ++ b ∧ a.length = p ∧
      (∀ a' b', s = a' ++ httpScheme ++ b' → p ≤ a'.length) ∧
      modifyUrlToHttps s = a ++ httpsScheme ++ b := by
  obtain ⟨a, b, hs, ha, hmin⟩ := strFind_some httpScheme s p h
  refine ⟨a, b, hs, ha, hmin, ?_⟩
  have h7 : httpScheme.length = 7 := by decide
  simp only [modifyUrlToHttps, h, strReplace]
  subst hs
  subst ha
  have e1 : (a ++ httpScheme ++ b).take a.length = a := by
    rw [List.append_assoc, List.take_left]
  have e2 : (a ++ httpScheme ++ b).drop (a.length + 7) = b := by
    have : a.length + 7 = (a ++ httpScheme).length := by simp [h7]
    rw [this, List.drop_left]
  rw [e1, e2]

theorem modifyUrlToHttps_of_none (s : List Char) (h : strFind httpScheme s = none) :
    modifyUrlToHttps s = s := by
  simp [modifyUrlToHttps, h]

theorem strFind_https (t : List Char) :
    strFind httpScheme (httpsScheme ++ t) = (strFind httpScheme t).map (· + 8) := by
  rw [httpScheme_eq, httpsScheme_eq]
  simp [strFind, List.cons_prefix_cons, Option.map_map, Function.comp_def]

/-! ## The blocks of one attempt -/

theorem kept_refl (w : World) : Kept w w :=
  ⟨fun _ => rfl, fun _ => rfl, rfl, rfl, rfl, rfl, id⟩

theorem kept_trans {a b c : World} (h₁ : Kept a b) (h₂ : Kept b c) : Kept a c :=
  ⟨fun i => (h₂.transport i).trans (h₁.transport i),
    fun i => (h₂.stopRequested i).trans (h₁.stopRequested i),
    h₂.trace.trans h₁.trace, h₂.content.trans h₁.content, h₂.canOpen.trans h₁.canOpen,
    h₂.cancel.trans h₁.cancel, fun h => h₂.connected (h₁.connected h)⟩

theorem keptUrl_refl (w : World) : KeptUrl w w := ⟨rfl, rfl⟩

theorem keptUrl_trans {a b c : World} (h₁ : KeptUrl a b) (h₂ : KeptUrl b c) : KeptUrl a c :=
  ⟨h₂.effective.trans h₁.effective, h₂.redirect.trans h₁.redirect⟩

@[simp]
theorem isConnected_setopt (c : CurlHttpClient) (f : CurlHandle → CurlHandle) :
    (c.setopt f).IsConnected = c.IsConnected := by
  simp [CurlHttpClient.IsConnected]

@[simp]
theorem isConnected_mapTimer (c : CurlHttpClient) (f : Timer → Timer) :
    (c.mapTimer f).IsConnected = c.IsConnected := rfl

@[simp]
theorem isConnected_stamp (c : CurlHttpClient) :
    c.stampLastRequestTime.IsConnected = c.IsConnected := rfl

@[simp]
theorem isConnected_setEffective (c : CurlHttpClient) (u : List Char) :
    (c.setEffectiveServerUrl u).IsConnected = c.IsConnected := rfl

@[simp]
theorem isConnected_setRedirect (c : CurlHttpClient) (n : Int) :
    (c.setRedirectResponseCount n).IsConnected = c.IsConnected := rfl

@[simp]
theorem isConnected_easyInit (c : CurlHttpClient) : c.easyInit.IsConnected = true := rfl

theorem kept_setopt (w : World) (f : CurlHandle → CurlHandle) :
    Kept w (w.setopt f) ∧ KeptUrl w (w.setopt f) := by
  refine ⟨⟨?_, ?_, ?_, ?_, ?_, ?_, ?_⟩, ⟨?_, ?_⟩⟩ <;> simp

/-- The write callback appends what the chunks carry. -/
theorem deliver_eq (chunks : List Chunk) (s : Stream) :
    deliver chunks s = { s with content := s.content ++ written chunks } := by
  induction chunks generalizing s with
  | nil => simp [deliver, written]
  | cons ch chunks ih =>
    have h := ih (CurlHttpClient.CurlWriteData ch.ptr ch.size ch.nmemb s).2
    simp only [deliver, List.foldl_cons] at h ⊢
    rw [h]
    by_cases hz : ch.size * ch.nmemb > 0
    · simp [CurlHttpClient.CurlWriteData, hz, Stream.Write, written, List.flatMap_cons]
    · have hz0 : ch.size * ch.nmemb = 0 := by omega
      simp [CurlHttpClient.CurlWriteData, hz0, written, List.flatMap_cons]

/-- The header list is never empty: `n_assert(0 != headers)` cannot fail. -/
theorem buildHeaders_ne_nil (rw : HttpRequestWriter) (r : Option Stream) :
    buildHeaders rw r ≠ [] := by
  simp [buildHeaders, curl_slist_append]

theorem setLowSpeed_frame (c : CurlHttpClient) :
    c.setLowSpeed.cancelOnThreadStopRequested = c.cancelOnThreadStopRequested ∧
      c.setLowSpeed.redirectResponseCount = c.redirectResponseCount ∧
      c.setLowSpeed.effectiveServerUrl = c.effectiveServerUrl ∧
      c.setLowSpeed.IsConnected = c.IsConnected ∧
      c.setLowSpeed.idleTimer = c.idleTimer := by
  simp only [setLowSpeed]
  split_ifs <;> simp

theorem startIdleTimer_frame (c : CurlHttpClient) :
    c.startIdleTimer.cancelOnThreadStopRequested = c.cancelOnThreadStopRequested ∧
      c.startIdleTimer.redirectResponseCount = c.redirectResponseCount ∧
      c.startIdleTimer.effectiveServerUrl = c.effectiveServerUrl ∧
      c.startIdleTimer.IsConnected = c.IsConnected ∧
      c.startIdleTimer.idleTimer.running = true ∧
      c.startIdleTimer.idleTimer.time = c.idleTimer.time := by
  simp only [startIdleTimer]
  split_ifs with h <;> simp [Timer.Start, Timer.Running] at h ⊢
  exact h

/-- `Connect` on a disconnected client succeeds. -/
theorem Connect_ok (c : CurlHttpClient) (uri : List Char) (hc : c.IsConnected = false) :
    ∃ c', c.Connect uri = .ok (true, c') ∧
      c'.cancelOnThreadStopRequested = c.cancelOnThreadStopRequested ∧
      c'.redirectResponseCount = c.redirectResponseCount ∧
      c'.effectiveServerUrl = uri ∧
      c'.IsConnected = true ∧ c'.idleTimer.running = true := by
  unfold CurlHttpClient.Connect
  rw [hc]
  refine ⟨_, rfl, ?_, ?_, ?_, ?_, ?_⟩ <;>
    simp [setLowSpeed_frame, startIdleTimer_frame]

theorem ensureConnected_ok (rw : HttpRequestWriter) (w : World) :
    ∃ w', ensureConnected rw w = .ok w' ∧ Kept w w' ∧
      w'.client.redirectResponseCount = w.client.redirectResponseCount ∧
      w'.client.effectiveServerUrl =
        (if w.client.IsConnected then w.client.effectiveServerUrl else rw.uri) ∧
      w'.client.IsConnected = true := by
  by_cases hc : w.client.IsConnected = true
  · exact ⟨w, by simp [ensureConnected, hc], kept_refl w, rfl, by simp [hc], hc⟩
  · simp only [Bool.not_eq_true] at hc
    obtain ⟨c', h, h1, h2, h3, h4, -⟩ := Connect_ok w.client rw.uri hc
    refine ⟨w.mapClient fun _ => c', by simp [ensureConnected, hc, h],
      ⟨?_, ?_, ?_, ?_, ?_, ?_, ?_⟩, ?_, ?_, ?_⟩ <;> simp [hc, h1, h2, h3, h4]

theorem setUrlAndMethod_ok (rw : HttpRequestWriter) (w : World)
    (hm : rw.method.supported = true) :
    ∃ w', setUrlAndMethod rw w = .ok w' ∧ Kept w w' ∧ KeptUrl w w' := by
  unfold setUrlAndMethod
  rcases hmeth : rw.method with _ | _ | _ | _ | _ | _ | _ | _ | _ <;>
    simp [hmeth, HttpMethod.supported] at hm <;>
    exact ⟨_, rfl, kept_trans (kept_setopt _ _).1 (kept_setopt _ _).1,
      keptUrl_trans (kept_setopt _ _).2 (kept_setopt _ _).2⟩

theorem setupHeaders_ok (rw : HttpRequestWriter) (w : World) :
    ∃ w', setupHeaders rw w = .ok (buildHeaders rw w.requestContentStream, w') ∧
      Kept w w' ∧ KeptUrl w w' := by
  unfold setupHeaders
  simp only [buildHeaders_ne_nil, if_false]
  refine ⟨_, rfl, ⟨?_, ?_, ?_, ?_, ?_, ?_, ?_⟩, ⟨?_, ?_⟩⟩ <;> simp

theorem attachBody_kept (rw : HttpRequestWriter) (w : World) :
    Kept w (attachBody rw w).2 ∧ KeptUrl w (attachBody rw w).2 := by
  unfold attachBody
  simp only
  split_ifs <;> refine ⟨⟨?_, ?_, ?_, ?_, ?_, ?_, ?_⟩, ⟨?_, ?_⟩⟩ <;> simp

theorem openResponse_ok (w : World) (ho : w.responseContentStream.canOpen = true) :
    ∃ w', openResponse w = .ok w' ∧ Kept w w' ∧ KeptUrl w w' ∧
      w'.requestContentStream = w.requestContentStream ∧
      (w.client.IsConnected = true → (w'.client.curlHandle.getD {}).WRITEDATA = true) := by
  unfold openResponse
  have h1 : ((w.mapResponse fun s => s.SetAccessMode AccessMode.WriteAccess).responseContentStream.Open).1
      = true := by
    simp [Stream.Open, Stream.SetAccessMode, ho]
  simp only [h1, Bool.not_true, Bool.false_eq_true, if_false]
  refine ⟨_, rfl, ⟨?_, ?_, ?_, ?_, ?_, ?_, ?_⟩, ⟨?_, ?_⟩, ?_, ?_⟩ <;>
    simp [Stream.Open, Stream.SetAccessMode, ho]
  intro hc
  rcases hh : w.client.curlHandle with _ | h
  · simp [CurlHttpClient.IsConnected, hh] at hc
  · simp

theorem exchange_facts (w : World) :
    (∀ i, w.exchange.transport i = w.transport (i + 1)) ∧
      (∀ i, w.exchange.stopRequested i = w.stopRequested i) ∧
      w.exchange.trace = w.trace ++
        [Event.perform (w.client.curlHandle.getD {}) w.responseContentStream.content
          (w.transport 0)] ∧
      w.exchange.responseContentStream.canOpen = w.responseContentStream.canOpen ∧
      w.exchange.client.cancelOnThreadStopRequested = w.client.cancelOnThreadStopRequested ∧
      w.exchange.client.IsConnected = w.client.IsConnected ∧
      KeptUrl w w.exchange ∧
      w.exchange.requestContentStream = w.requestContentStream ∧
      ((w.client.curlHandle.getD {}).WRITEDATA = true →
        w.exchange.responseContentStream.content =
          w.responseContentStream.content ++ written (w.transport 0).chunks) := by
  unfold World.exchange
  simp only
  split_ifs with h <;>
    refine ⟨?_, ?_, ?_, ?_, ?_, ?_, ⟨?_, ?_⟩, ?_, ?_⟩ <;> simp [deliver_eq, h]

theorem closeResponse_kept (w : World) :
    Kept w (closeResponse w) ∧ KeptUrl w (closeResponse w) ∧
      (closeResponse w).requestContentStream = w.requestContentStream := by
  unfold closeResponse
  split_ifs <;> refine ⟨⟨?_, ?_, ?_, ?_, ?_, ?_, ?_⟩, ⟨?_, ?_⟩, ?_⟩ <;> simp [Stream.Close]

theorem freeHeaders_kept (headers : List (List Char)) (w : World) :
    Kept w (freeHeaders headers w) ∧ KeptUrl w (freeHeaders headers w) := by
  unfold freeHeaders
  split_ifs <;> refine ⟨⟨?_, ?_, ?_, ?_, ?_, ?_, ?_⟩, ⟨?_, ?_⟩⟩ <;> simp

theorem releaseBody_ok (postData : Option (List Nat)) (w : World)
    (hp : postData.isSome = true → w.requestContentStream.isSome = true) :
    ∃ w', releaseBody postData w = .ok w' ∧ Kept w w' ∧ KeptUrl w w' := by
  unfold releaseBody
  by_cases h1 : postData.isSome = true
  · simp only [h1, hp h1, if_true]
    refine ⟨_, rfl, ⟨?_, ?_, ?_, ?_, ?_, ?_, ?_⟩, ⟨?_, ?_⟩⟩ <;> simp
  · simp only [h1, if_false]
    exact ⟨_, rfl, kept_refl w, keptUrl_refl w⟩

theorem cleanup_ok (postData : Option (List Nat)) (headers : List (List Char)) (w : World)
    (hp : postData.isSome = true → w.requestContentStream.isSome = true) :
    ∃ w', cleanup postData headers w = .ok w' ∧ Kept w w' ∧ KeptUrl w w' := by
  unfold cleanup
  have hc := closeResponse_kept (w.setopt fun h => { h with WRITEDATA := false })
  have hs := kept_setopt w fun h => { h with WRITEDATA := false }
  obtain ⟨w1, h1, k1, u1⟩ := releaseBody_ok postData
    (closeResponse (w.setopt fun h => { h with WRITEDATA := false }))
    (by rw [hc.2.2]; simpa using hp)
  simp only [h1]
  have hf := freeHeaders_kept headers w1
  exact ⟨_, rfl, kept_trans (kept_trans (kept_trans hs.1 hc.1) k1) hf.1,
    keptUrl_trans (keptUrl_trans (keptUrl_trans hs.2 hc.2.1) u1) hf.2⟩

theorem attachBody_isSome (rw : HttpRequestWriter) (w : World) :
    (attachBody rw w).1.isSome = true → (attachBody rw w).2.requestContentStream.isSome = true := by
  unfold attachBody
  simp only
  split_ifs with hm hs
  · intro _
    rcases hr : w.requestContentStream with _ | r
    · simp [hr] at hs
    · simp [hr]
  · intro h
    exact absurd h hs
  · simp

theorem updateEffectiveUrl_frame (x : Exchange) (c : CurlHttpClient) :
    (updateEffectiveUrl x c).effectiveServerUrl = effectiveUrlAfter x c.effectiveServerUrl ∧
      (updateEffectiveUrl x c).redirectResponseCount = c.redirectResponseCount ∧
      (updateEffectiveUrl x c).cancelOnThreadStopRequested = c.cancelOnThreadStopRequested ∧
      (updateEffectiveUrl x c).IsConnected = c.IsConnected := by
  unfold updateEffectiveUrl effectiveUrlAfter
  split
  · split_ifs <;> simp
  · simp

theorem updateRedirectCount_frame (x : Exchange) (c : CurlHttpClient) :
    (updateRedirectCount x c).effectiveServerUrl = c.effectiveServerUrl ∧
      (updateRedirectCount x c).redirectResponseCount =
        (if CURLE_OK = x.redirectCountResult then x.redirectCount else c.redirectResponseCount) ∧
      (updateRedirectCount x c).cancelOnThreadStopRequested = c.cancelOnThreadStopRequested ∧
      (updateRedirectCount x c).IsConnected = c.IsConnected := by
  unfold updateRedirectCount
  split_ifs <;> simp

/-- An attempt with a supported method and a response stream that opens
returns; its status, and what it does to the world. -/
theorem InternalSendRequest_ok (K : Config) (rw : HttpRequestWriter) (w : World)
    (hm : rw.method.supported = true) (ho : w.responseContentStream.canOpen = true) :
    ∃ w' h, InternalSendRequest K rw w = .ok (attemptStatus K (w.transport 0), w') ∧
      (∀ i, w'.transport i = w.transport (i + 1)) ∧
      (∀ i, w'.stopRequested i = w.stopRequested i) ∧
      w'.trace = w.trace ++ [Event.perform h w.responseContentStream.content (w.transport 0)] ∧
      w'.responseContentStream.content =
        w.responseContentStream.content ++ written (w.transport 0).chunks ∧
      w'.responseContentStream.canOpen = true ∧
      w'.client.cancelOnThreadStopRequested = w.client.cancelOnThreadStopRequested ∧
      w'.client.IsConnected = true ∧
      w'.client.effectiveServerUrl =
        effectiveUrlAfter (w.transport 0)
          (if w.client.IsConnected then w.client.effectiveServerUrl else rw.uri) ∧
      w'.client.redirectResponseCount =
        (if CURLE_OK = (w.transport 0).redirectCountResult then (w.transport 0).redirectCount
          else w.client.redirectResponseCount) := by
  unfold InternalSendRequest
  obtain ⟨w1, e1, k1, r1, f1, c1⟩ := ensureConnected_ok rw w
  obtain ⟨w2, e2, k2, u2⟩ := setUrlAndMethod_ok rw w1 hm
  obtain ⟨w3, e3, k3, u3⟩ := setupHeaders_ok rw w2
  obtain ⟨k4, u4⟩ := attachBody_kept rw w3
  have hsome := attachBody_isSome rw w3
  have k04 : Kept w (attachBody rw w3).2 := kept_trans (kept_trans (kept_trans k1 k2) k3) k4
  obtain ⟨w5, e5, k5, u5, q5, wd5⟩ := openResponse_ok (attachBody rw w3).2
    (by rw [k04.canOpen]; exact ho)
  have k05 : Kept w w5 := kept_trans k04 k5
  have c5 : w5.client.IsConnected = true :=
    k5.connected (k4.connected (k3.connected (k2.connected c1)))
  have c4 : (attachBody rw w3).2.client.IsConnected = true :=
    k4.connected (k3.connected (k2.connected c1))
  obtain ⟨x1, x2, x3, x4, x5, x6, x7, x8, x9⟩ := exchange_facts w5
  obtain ⟨a1, a2, a3, a4⟩ := updateEffectiveUrl_frame (w5.transport 0) w5.exchange.client
  obtain ⟨b1, b2, b3, b4⟩ := updateRedirectCount_frame (w5.transport 0)
    (updateEffectiveUrl (w5.transport 0) w5.exchange.client)
  obtain ⟨w6, e6, k6, u6⟩ := cleanup_ok (attachBody rw w3).1 (buildHeaders rw w2.requestContentStream)
    ((w5.exchange.mapClient (updateEffectiveUrl (w5.transport 0))).mapClient
      (updateRedirectCount (w5.transport 0)))
    (by intro hp; simpa [x8, q5] using hsome hp)
  simp only [e1, e2, e3, e5, curl_easy_perform, e6]
  have ht0 : w5.transport 0 = w.transport 0 := k05.transport 0
  simp only [ht0] at a1 a2 a3 a4 b1 b2 b3 b4 k6 u6 x3 x9 ⊢
  refine ⟨w6, w5.client.curlHandle.getD {}, ?_, ?_, ?_, ?_, ?_, ?_, ?_, ?_, ?_, ?_⟩
  · rfl
  · intro i; rw [k6.transport]; simp [x1, k05.transport]
  · intro i; rw [k6.stopRequested]; simp [x2, k05.stopRequested]
  · rw [k6.trace]; simp [x3, k05.trace, k05.content, ht0]
  · rw [k6.content]; simp [x9 (wd5 c4), k05.content, ht0]
  · rw [k6.canOpen]; simp [x4, k05.canOpen, ho]
  · rw [k6.cancel]; simp [b3, a3, x5, k05.cancel]
  · apply k6.connected; simp [b4, a4, x6, c5]
  · rw [u6.effective]; simp [b1, a1, x7.effective, u5.effective, u4.effective, u3.effective,
      u2.effective, f1, ht0]
  · rw [u6.redirect]; simp [b2, a2, x7.redirect, u5.redirect, u4.redirect, u3.redirect,
      u2.redirect, r1, ht0]

/-! ## The retry loop -/

theorem retrySteps_succ (cooldown : Int) (t : Nat → Exchange) (j : Nat) :
    retrySteps cooldown t (j + 1) =
      Step.sleep cooldown :: Step.attempt [] (t 0) ::
        retrySteps cooldown (fun i => t (i + 1)) j := by
  simp [retrySteps, List.range_succ_eq_map, List.flatMap_cons, List.flatMap_map]

theorem n_sleep_facts (w : World) (d : Int) :
    (∀ i, (n_sleep w d).transport i = w.transport i) ∧
      (∀ i, (n_sleep w d).stopRequested i = w.stopRequested i) ∧
      (n_sleep w d).trace = w.trace ++ [Event.sleep d] ∧
      (n_sleep w d).responseContentStream = w.responseContentStream ∧
      (n_sleep w d).client.cancelOnThreadStopRequested = w.client.cancelOnThreadStopRequested := by
  unfold n_sleep
  refine ⟨?_, ?_, ?_, ?_, ?_⟩ <;> simp

theorem statusAt_shift (K : Config) (st : Int) (t t' : Nat → Exchange)
    (h : ∀ i, t' i = t (i + 1)) (i : Nat) :
    statusAt K (attemptStatus K (t 0)) t' i = statusAt K st t (i + 1) := by
  cases i with
  | zero => rfl
  | succ i => simp [statusAt, h]

theorem pollStop_facts (w : World) :
    (pollStop w).1 = (w.client.cancelOnThreadStopRequested && w.stopRequested 0) ∧
      (∀ i, (pollStop w).2.transport i = w.transport i) ∧
      (∀ i, (pollStop w).2.stopRequested i =
        w.stopRequested (if w.client.cancelOnThreadStopRequested then i + 1 else i)) ∧
      (pollStop w).2.trace = w.trace ∧
      (pollStop w).2.responseContentStream = w.responseContentStream ∧
      (pollStop w).2.client = w.client := by
  unfold pollStop GetMyThreadStopRequested
  split_ifs with h <;> simp [h]

/-- The loop of `SendRequest` when no stop request is observed and the retry
condition holds `j` times and then fails. -/
theorem retryLoop_run (K : Config) (rw : HttpRequestWriter) (m : Int)
    (hm : rw.method.supported = true) :
    ∀ (j fuel : Nat) (curRetry st : Int) (w : World),
      w.responseContentStream.canOpen = true → NoStopObserved w → j ≤ fuel →
      (∀ i, i < j → isRetryStatus K (statusAt K st w.transport i) = true) →
      curRetry + j ≤ m →
      (curRetry + j = m ∨ isRetryStatus K (statusAt K st w.transport j) = false) →
      ∃ w' es, retryLoop K rw m fuel curRetry st w =
          some (.ok (statusAt K st w.transport j, w')) ∧
        w'.trace = w.trace ++ es ∧
        es.map Event.step = retrySteps K.retryCooldown w.transport j ∧
        (0 < j → w'.responseContentStream.content = written (w.transport (j - 1)).chunks) ∧
        (j = 0 → w'.responseContentStream = w.responseContentStream) ∧
        w'.client.lastRequestTime = w'.client.idleTimer.GetTime := by
  intro j
  induction j with
  | zero =>
    intro fuel curRetry st w _ _ _ _ hle hend
    have hc : (isRetryStatus K st && decide (curRetry < m)) = false := by
      rcases hend with h | h
      · have : ¬ curRetry < m := by simp at h; omega
        simp [this]
      · simp [statusAt] at h; simp [h]
    refine ⟨w.mapClient stampLastRequestTime, [], ?_, ?_, ?_, ?_, ?_, ?_⟩
    · unfold retryLoop; simp [hc, statusAt]
    · simp
    · simp [retrySteps]
    · simp
    · simp
    · simp
  | succ j ih =>
    intro fuel curRetry st w ho hns hfuel htrans hle hend
    obtain ⟨fuel, rfl⟩ : ∃ f, fuel = f + 1 := ⟨fuel - 1, by omega⟩
    have h0 := htrans 0 (by omega)
    simp only [statusAt] at h0
    have hlt : curRetry < m := by push_cast at hle; omega
    obtain ⟨s1, s2, s3, s4, s5⟩ := n_sleep_facts w K.retryCooldown
    obtain ⟨p1, p2, p3, p4, p5, p6⟩ := pollStop_facts (n_sleep w K.retryCooldown)
    have hp1 : (pollStop (n_sleep w K.retryCooldown)).1 = false := by
      rw [p1, s5, s2]
      by_cases hc : w.client.cancelOnThreadStopRequested = true
      · simp [hns hc 0]
      · simp [hc]
    have hpair : pollStop (n_sleep w K.retryCooldown) =
        (false, (pollStop (n_sleep w K.retryCooldown)).2) := by
      rw [← hp1]
    obtain ⟨w3, h, e3, t3, q3, r3, c3, o3, a3, -⟩ := InternalSendRequest_ok K rw
      ((pollStop (n_sleep w K.retryCooldown)).2.mapResponse fun s => s.SetSize 0) hm
      (by simp [Stream.SetSize, p5, s4, ho])
    simp only [World.mapResponse_transport, World.mapResponse_stopRequested,
      World.mapResponse_trace, World.mapResponse_responseContentStream,
      World.mapResponse_client, p2, p3, p4, p5, p6, s1, s2, s3, s4, s5] at e3 t3 q3 r3 c3 a3
    have hcontent : (w.responseContentStream.SetSize 0).content = [] := by
      simp [Stream.SetSize]
    rw [hcontent] at r3 c3
    have hns3 : NoStopObserved w3 := by
      intro hc i
      rw [a3] at hc
      rw [q3, hns hc]
    have hshift := statusAt_shift K st w.transport w3.transport t3
    obtain ⟨w', es, e', tr', st', co', cz', lr'⟩ := ih fuel (curRetry + 1)
      (attemptStatus K (w.transport 0)) w3 o3 hns3 (by omega)
      (fun i hi => by rw [hshift]; exact htrans (i + 1) (by omega))
      (by push_cast at hle ⊢; omega)
      (by
        rcases hend with h' | h'
        · left; push_cast at h' ⊢; omega
        · right; rw [hshift]; exact h')
    refine ⟨w', Event.sleep K.retryCooldown ::
      Event.perform h [] (w.transport 0) :: es, ?_, ?_, ?_, ?_, ?_, lr'⟩
    · rw [retryLoop]
      simp only [h0, hlt, decide_True, Bool.and_self, if_true]
      rw [hpair]
      simp only [e3]
      rw [e', hshift]
    · rw [tr', r3]; simp
    · have : w3.transport = fun i => w.transport (i + 1) := funext t3
      simp [Event.step, retrySteps_succ, st', this]
    · intro _
      rcases Nat.eq_zero_or_pos j with hj | hj
      · subst hj
        rw [cz' rfl, c3]; simp
      · rw [co' hj, t3]
        congr 3
        omega
    · intro hj; omega

/-- The loop of `SendRequest` when the stop request is observed at the retry
boundary after `j` full iterations. -/
theorem retryLoop_cancel (K : Config) (rw : HttpRequestWriter) (m : Int)
    (hm : rw.method.supported = true) :
    ∀ (j fuel : Nat) (curRetry st : Int) (w : World),
      w.responseContentStream.canOpen = true →
      w.client.cancelOnThreadStopRequested = true →
      (∀ i, i < j → w.stopRequested i = false) → w.stopRequested j = true →
      j < fuel →
      (∀ i, i ≤ j → isRetryStatus K (statusAt K st w.transport i) = true) →
      curRetry + j < m →
      ∃ w' es, retryLoop K rw m fuel curRetry st w = some (.ok (HttpStatus.NotFound, w')) ∧
        w'.trace = w.trace ++ es ∧
        es.map Event.step = retrySteps K.retryCooldown w.transport j ++ [Step.sleep K.retryCooldown] := by
  intro j
  induction j with
  | zero =>
    intro fuel curRetry st w _ hc _ hstop hfuel htrans hlt
    obtain ⟨fuel, rfl⟩ : ∃ f, fuel = f + 1 := ⟨fuel - 1, by omega⟩
    have h0 := htrans 0 (by omega)
    simp only [statusAt] at h0
    have hlt' : curRetry < m := by simpa using hlt
    obtain ⟨s1, s2, s3, s4, s5⟩ := n_sleep_facts w K.retryCooldown
    obtain ⟨p1, p2, p3, p4, p5, p6⟩ := pollStop_facts (n_sleep w K.retryCooldown)
    have hp1 : (pollStop (n_sleep w K.retryCooldown)).1 = true := by
      rw [p1, s5, s2, hc, hstop]; rfl
    have hpair : pollStop (n_sleep w K.retryCooldown) =
        (true, (pollStop (n_sleep w K.retryCooldown)).2) := by
      rw [← hp1]
    refine ⟨(pollStop (n_sleep w K.retryCooldown)).2, [Event.sleep K.retryCooldown], ?_, ?_, ?_⟩
    · rw [retryLoop]
      simp only [h0, hlt', decide_True, Bool.and_self, if_true]
      rw [hpair]
    · rw [p4, s3]
    · simp [Event.step, retrySteps]
  | succ j ih =>
    intro fuel curRetry st w ho hc hns hstop hfuel htrans hle
    obtain ⟨fuel, rfl⟩ : ∃ f, fuel = f + 1 := ⟨fuel - 1, by omega⟩
    have h0 := htrans 0 (by omega)
    simp only [statusAt] at h0
    have hlt : curRetry < m := by push_cast at hle; omega
    obtain ⟨s1, s2, s3, s4, s5⟩ := n_sleep_facts w K.retryCooldown
    obtain ⟨p1, p2, p3, p4, p5, p6⟩ := pollStop_facts (n_sleep w K.retryCooldown)
    have hp1 : (pollStop (n_sleep w K.retryCooldown)).1 = false := by
      rw [p1, s5, s2, hns 0 (by omega)]; simp
    have hpair : pollStop (n_sleep w K.retryCooldown) =
        (false, (pollStop (n_sleep w K.retryCooldown)).2) := by
      rw [← hp1]
    obtain ⟨w3, h, e3, t3, q3, r3, c3, o3, a3, -⟩ := InternalSendRequest_ok K rw
      ((pollStop (n_sleep w K.retryCooldown)).2.mapResponse fun s => s.SetSize 0) hm
      (by simp [Stream.SetSize, p5, s4, ho])
    simp only [World.mapResponse_transport, World.mapResponse_stopRequested,
      World.mapResponse_trace, World.mapResponse_responseContentStream,
      World.mapResponse_client, p2, p3, p4, p5, p6, s1, s2, s3, s4, s5, hc, if_true]
      at e3 t3 q3 r3 c3 a3
    have hcontent : (w.responseContentStream.SetSize 0).content = [] := by
      simp [Stream.SetSize]
    rw [hcontent] at r3 c3
    have hshift := statusAt_shift K st w.transport w3.transport t3
    obtain ⟨w', es, e', tr', st'⟩ := ih fuel (curRetry + 1)
      (attemptStatus K (w.transport 0)) w3 o3 a3
      (fun i hi => by rw [q3]; exact hns (i + 1) (by omega))
      (by rw [q3]; exact hstop) (by omega)
      (fun i hi => by rw [hshift]; exact htrans (i + 1) (by omega))
      (by push_cast at hle ⊢; omega)
    refine ⟨w', Event.sleep K.retryCooldown ::
      Event.perform h [] (w.transport 0) :: es, ?_, ?_, ?_⟩
    · rw [retryLoop]
      simp only [h0, hlt, decide_True, Bool.and_self, if_true]
      rw [hpair]
      simp only [e3]
      rw [e']
    · rw [tr', r3]; simp
    · have : w3.transport = fun i => w.transport (i + 1) := funext t3
      simp [Event.step, retrySteps_succ, st', this]


theorem retrySteps_exchanges (cooldown : Int) (t : Nat → Exchange) (j : Nat) :
    (retrySteps cooldown t j).filterMap Step.exchangeOf = (List.range j).map t := by
  induction j generalizing t with
  | zero => simp [retrySteps]
  | succ j ih =>
    rw [retrySteps_succ, List.range_succ_eq_map]
    simp [Step.exchangeOf, ih, List.map_map, Function.comp_def]

theorem retrySteps_sleeps (cooldown : Int) (t : Nat → Exchange) (j : Nat) :
    (retrySteps cooldown t j).countP Step.isSleep = j := by
  induction j generalizing t with
  | zero => simp [retrySteps]
  | succ j ih =>
    rw [retrySteps_succ]
    simp [Step.isSleep, ih]

/-- A run of `SendRequest` in which no stop request is observed and the loop
ends after `j` retries. -/
theorem SendRequest_run (K : Config) (rw : HttpRequestWriter) (m : Int) (w : World)
    (hm : rw.method.supported = true) (ho : w.responseContentStream.canOpen = true)
    (hns : NoStopObserved w) (j : Nat)
    (htrans : ∀ i, i < j → isRetryStatus K (attemptStatus K (w.transport i)) = true)
    (hle : (j : Int) ≤ m)
    (hend : (j : Int) = m ∨ isRetryStatus K (attemptStatus K (w.transport j)) = false) :
    ∃ w' es, SendRequest K rw m w = some (.ok (attemptStatus K (w.transport j), w')) ∧
      w'.trace = w.trace ++ es ∧
      es.map Event.step = Step.attempt w.responseContentStream.content (w.transport 0) ::
        retrySteps K.retryCooldown (fun i => w.transport (i + 1)) j ∧
      (0 < j → w'.responseContentStream.content = written (w.transport j).chunks) ∧
      w'.client.lastRequestTime = w'.client.idleTimer.GetTime := by
  obtain ⟨w1, h, e1, t1, q1, r1, c1, o1, a1, -⟩ := InternalSendRequest_ok K rw w hm ho
  have hst : ∀ i, statusAt K (attemptStatus K (w.transport 0)) w1.transport i =
      attemptStatus K (w.transport i) := by
    intro i
    cases i with
    | zero => rfl
    | succ i => simp [statusAt, t1]
  have hns1 : NoStopObserved w1 := by
    intro hc i
    rw [a1] at hc
    rw [q1, hns hc]
  obtain ⟨w', es, e', tr', st', co', -, lr'⟩ := retryLoop_run K rw m hm j m.toNat 0
    (attemptStatus K (w.transport 0)) w1 o1 hns1 (by omega)
    (fun i hi => by rw [hst]; exact htrans i hi) (by omega)
    (by
      rcases hend with h' | h'
      · left; omega
      · right; rw [hst]; exact h')
  refine ⟨w', Event.perform h w.responseContentStream.content (w.transport 0) :: es,
    ?_, ?_, ?_, ?_, lr'⟩
  · simp only [SendRequest, e1]
    rw [e', hst]
  · rw [tr', r1]; simp
  · have : w1.transport = fun i => w.transport (i + 1) := funext t1
    simp [Event.step, st', this]
  · intro hj
    rw [co' hj, t1]
    congr 3
    omega

/-- Among the first `b` values of `p` there is a first failure, or none. -/
theorem exists_leading (p : Nat → Bool) (b : Nat) :
    ∃ j, j ≤ b ∧ (∀ i, i < j → p i = true) ∧ (j = b ∨ p j = false) := by
  induction b with
  | zero => exact ⟨0, le_refl 0, fun i hi => absurd hi (Nat.not_lt_zero i), Or.inl rfl⟩
  | succ b ih =>
    obtain ⟨j, hj, hall, hend⟩ := ih
    rcases hend with rfl | hend
    · by_cases hp : p j = true
      · refine ⟨j + 1, le_refl _, ?_, Or.inl rfl⟩
        intro i hi
        rcases Nat.lt_succ_iff_lt_or_eq.mp hi with h | h
        · exact hall i h
        · rw [h]; exact hp
      · exact ⟨j, Nat.le_succ j, hall, Or.inr (by simpa using hp)⟩
    · exact ⟨j, Nat.le_succ_of_le hj, hall, Or.inr hend⟩

/-- With enough fuel the loop of `SendRequest` returns, whatever the statuses
and the stop flag are; every attempt it makes starts with an empty response
stream, and when it ends with an attempt the stream holds what that attempt
wrote. -/
theorem retryLoop_sink (K : Config) (rw : HttpRequestWriter) (m : Int)
    (hm : rw.method.supported = true) :
    ∀ (fuel : Nat) (curRetry st : Int) (w : World),
      w.responseContentStream.canOpen = true → m - curRetry ≤ fuel →
      ∃ st' w' es, retryLoop K rw m fuel curRetry st w = some (.ok (st', w')) ∧
        w'.trace = w.trace ++ es ∧
        (∀ h c x, Event.perform h c x ∈ es → c = []) ∧
        (∀ h c x, es.getLast? = some (Event.perform h c x) →
          w'.responseContentStream.content = written x.chunks) ∧
        (es = [] → w'.responseContentStream = w.responseContentStream) := by
  intro fuel
  induction fuel with
  | zero =>
    intro curRetry st w _ hfuel
    have hc : (isRetryStatus K st && decide (curRetry < m)) = false := by
      have : ¬ curRetry < m := by push_cast at hfuel; omega
      simp [this]
    refine ⟨st, w.mapClient stampLastRequestTime, [], ?_, by simp, by simp, by simp, by simp⟩
    rw [retryLoop]; simp [hc]
  | succ fuel ih =>
    intro curRetry st w ho hfuel
    by_cases hc : (isRetryStatus K st && decide (curRetry < m)) = true
    · obtain ⟨s1, s2, s3, s4, s5⟩ := n_sleep_facts w K.retryCooldown
      obtain ⟨p1, p2, p3, p4, p5, p6⟩ := pollStop_facts (n_sleep w K.retryCooldown)
      rcases hb : (pollStop (n_sleep w K.retryCooldown)).1 with _ | _
      · have hpair : pollStop (n_sleep w K.retryCooldown) =
            (false, (pollStop (n_sleep w K.retryCooldown)).2) := by
          rw [← hb]
        obtain ⟨w3, h, e3, t3, q3, r3, c3, o3, -⟩ := InternalSendRequest_ok K rw
          ((pollStop (n_sleep w K.retryCooldown)).2.mapResponse fun s => s.SetSize 0) hm
          (by simp [Stream.SetSize, p5, s4, ho])
        simp only [World.mapResponse_transport, World.mapResponse_trace,
          World.mapResponse_responseContentStream, p2, p4, p5, s1, s3, s4] at e3 t3 r3 c3
        have hcontent : (w.responseContentStream.SetSize 0).content = [] := by
          simp [Stream.SetSize]
        rw [hcontent] at r3 c3
        obtain ⟨st', w', es, e', tr', hall, hlast, hnil⟩ := ih (curRetry + 1)
          (attemptStatus K (w.transport 0)) w3 o3 (by push_cast at hfuel ⊢; omega)
        refine ⟨st', w', Event.sleep K.retryCooldown ::
          Event.perform h [] (w.transport 0) :: es, ?_, ?_, ?_, ?_, ?_⟩
        · rw [retryLoop]
          simp only [hc, if_true]
          rw [hpair]
          simp only [e3]
          rw [e']
        · rw [tr', r3]; simp
        · intro h' c x hmem
          simp only [List.mem_cons, Event.perform.injEq, reduceCtorEq, false_or] at hmem
          rcases hmem with ⟨-, rfl, -⟩ | hmem
          · rfl
          · exact hall h' c x hmem
        · intro h' c x hl
          cases es with
          | nil =>
            simp only [List.getLast?_cons_cons, List.getLast?_singleton, Option.some.injEq,
              Event.perform.injEq] at hl
            obtain ⟨-, -, rfl⟩ := hl
            rw [hnil rfl, c3]; simp
          | cons e0 es0 =>
            rw [List.getLast?_cons_cons, List.getLast?_cons_cons] at hl
            exact hlast h' c x hl
        · intro h0; simp at h0
      · have hpair : pollStop (n_sleep w K.retryCooldown) =
            (true, (pollStop (n_sleep w K.retryCooldown)).2) := by
          rw [← hb]
        refine ⟨HttpStatus.NotFound, (pollStop (n_sleep w K.retryCooldown)).2,
          [Event.sleep K.retryCooldown], ?_, ?_, ?_, ?_, ?_⟩
        · rw [retryLoop]
          simp only [hc, if_true]
          rw [hpair]
        · rw [p4, s3]
        · intro h' c x hmem; simp at hmem
        · intro h' c x hl; simp at hl
        · intro h0; simp at h0
    · refine ⟨st, w.mapClient stampLastRequestTime, [], ?_, by simp, by simp, by simp, by simp⟩
      rw [retryLoop]; simp [hc]

/-! ## The claims -/

/-- C1: for every retry bound `n`, if every attempt yields a transient status
(503, 502 or `Nebula3CurlEasyPerformFailed`) and no stop request is observed,
`SendRequest` with `maxRetries = n` returns after exactly `n + 1` attempts and
exactly `n` cooldown sleeps; the run is attempt 0 followed by `n` times a
cooldown sleep and the next attempt, the attempts performing the exchanges of
the transport in order. -/
theorem C1_transient_failure_exhausts_budget (K : Config) (requestWriter : HttpRequestWriter)
    (w : World) (n : Nat)
    (hm : requestWriter.method.supported = true)
    (ho : w.responseContentStream.canOpen = true)
    (htrans : ∀ i, isRetryStatus K (attemptStatus K (w.transport i)) = true)
    (hns : NoStopObserved w) :
    ∃ httpStatus w' es,
      SendRequest K requestWriter (n : Int) w = some (.ok (httpStatus, w')) ∧
      w'.trace = w.trace ++ es ∧
      attemptCount es = n + 1 ∧ sleepCount es = n ∧
      es.map Event.step = Step.attempt w.responseContentStream.content (w.transport 0) ::
        (List.range n).flatMap fun i =>
          [Step.sleep K.retryCooldown, Step.attempt [] (w.transport (i + 1))] := by
  obtain ⟨w', es, e, tr, st, -, -⟩ := SendRequest_run K requestWriter n w hm ho hns n
    (fun i _ => htrans i) (le_refl _) (Or.inl rfl)
  refine ⟨_, w', es, e, tr, ?_, ?_, ?_⟩
  · simp [attemptCount, exchangesOf, st, Step.exchangeOf, retrySteps_exchanges]
  · simp [sleepCount, st, Step.isSleep, retrySteps_sleeps]
  · rw [st]; rfl

/-- C1 at a concrete input: a transport that always answers 503, `maxRetries = 2`. -/
theorem C1_transient_failure_exhausts_budget_witness :
    ∃ httpStatus w' es,
      SendRequest sampleConfig sampleRequest ((2 : Nat) : Int)
          (sampleWorld (fun _ => sampleExchange 503) (fun _ => false)) =
        some (.ok (httpStatus, w')) ∧
      w'.trace = (sampleWorld (fun _ => sampleExchange 503) (fun _ => false)).trace ++ es ∧
      attemptCount es = 2 + 1 ∧ sleepCount es = 2 ∧
      es.map Event.step =
        Step.attempt
            (sampleWorld (fun _ => sampleExchange 503) (fun _ => false)).responseContentStream.content
            ((sampleWorld (fun _ => sampleExchange 503) (fun _ => false)).transport 0) ::
          (List.range 2).flatMap fun i =>
            [Step.sleep sampleConfig.retryCooldown,
              Step.attempt []
                ((sampleWorld (fun _ => sampleExchange 503) (fun _ => false)).transport (i + 1))] :=
  C1_transient_failure_exhausts_budget sampleConfig sampleRequest
    (sampleWorld (fun _ => sampleExchange 503) (fun _ => false)) 2 (by decide) (by decide)
    (fun _ => (by decide :
      isRetryStatus sampleConfig (attemptStatus sampleConfig (sampleExchange 503)) = true))
    (fun _ _ => rfl)

/-- C2: for every sequence of per-attempt statuses and every `maxRetries >= 0`,
with no stop request observed, `SendRequest` returns; the number of attempts is
`1 + min maxRetries L` when `L` is the number of leading transient statuses of
the sequence, and `1 + maxRetries` when every status of the sequence is
transient; the attempts perform the exchanges of the transport in order, and
the returned status is the status of the last attempt performed. -/
theorem C2_retries_only_transient_within_budget (K : Config)
    (requestWriter : HttpRequestWriter) (w : World) (maxRetries : Int)
    (hmax : 0 ≤ maxRetries)
    (hm : requestWriter.method.supported = true)
    (ho : w.responseContentStream.canOpen = true)
    (hns : NoStopObserved w) :
    ∃ httpStatus w' es,
      SendRequest K requestWriter maxRetries w = some (.ok (httpStatus, w')) ∧
      w'.trace = w.trace ++ es ∧
      (∀ L : Nat, (∀ i, i < L → isRetryStatus K (attemptStatus K (w.transport i)) = true) →
        isRetryStatus K (attemptStatus K (w.transport L)) = false →
        attemptCount es = 1 + min maxRetries.toNat L) ∧
      ((∀ i, isRetryStatus K (attemptStatus K (w.transport i)) = true) →
        attemptCount es = 1 + maxRetries.toNat) ∧
      exchangesOf es = (List.range (attemptCount es)).map w.transport ∧
      httpStatus = attemptStatus K (w.transport (attemptCount es - 1)) := by
  obtain ⟨j, hj, hall, hend⟩ :=
    exists_leading (fun i => isRetryStatus K (attemptStatus K (w.transport i))) maxRetries.toNat
  obtain ⟨w', es, e, tr, st, -, -⟩ := SendRequest_run K requestWriter maxRetries w hm ho hns j
    hall (by omega) (by
      rcases hend with h | h
      · left; omega
      · right; exact h)
  have hx : exchangesOf es = (List.range (j + 1)).map w.transport := by
    simp only [exchangesOf, st, List.filterMap_cons, Step.exchangeOf, retrySteps_exchanges]
    rw [List.range_succ_eq_map]
    simp [List.map_map, Function.comp_def]
  have hc : attemptCount es = j + 1 := by simp [attemptCount, hx]
  refine ⟨_, w', es, e, tr, ?_, ?_, ?_, ?_⟩
  · intro L hL hnL
    rw [hc]
    have h1 : ¬ L < j := fun h => by
      have := hall L h
      simp only [hnL] at this
      exact Bool.noConfusion this
    rcases hend with h | h
    · omega
    · have h2 : ¬ j < L := fun h' => by
        have := hL j h'
        simp only [h] at this
        exact Bool.noConfusion this
      omega
  · intro hAll
    rw [hc]
    rcases hend with h | h
    · omega
    · have := hAll j
      simp only [h] at this
      exact Bool.noConfusion this
  · rw [hc, hx]
  · rw [hc]; rfl

/-- C2 at the scenarios of the specification: the statuses 503, 503, 200 give
200 after 3 attempts with `maxRetries = 2` and 503 after 2 attempts with
`maxRetries = 1`; a first status 404 gives exactly one attempt. -/
theorem C2_retries_only_transient_within_budget_witness :
    (∃ w' es,
      SendRequest sampleConfig sampleRequest 2
          (sampleWorld (fun i => if i < 2 then sampleExchange 503 else sampleExchange 200)
            (fun _ => false)) = some (.ok (200, w')) ∧
      attemptCount es = 3 ∧ w'.trace = es) ∧
    (∃ w' es,
      SendRequest sampleConfig sampleRequest 1
          (sampleWorld (fun i => if i < 2 then sampleExchange 503 else sampleExchange 200)
            (fun _ => false)) = some (.ok (503, w')) ∧
      attemptCount es = 2 ∧ w'.trace = es) ∧
    (∃ w' es,
      SendRequest sampleConfig sampleRequest 5
          (sampleWorld (fun _ => sampleExchange 404) (fun _ => false)) = some (.ok (404, w')) ∧
      attemptCount es = 1 ∧ w'.trace = es) := by
  refine ⟨?_, ?_, ?_⟩
  · obtain ⟨st, w', es, e, tr, hL, -, -, hst⟩ :=
      C2_retries_only_transient_within_budget sampleConfig sampleRequest
        (sampleWorld (fun i => if i < 2 then sampleExchange 503 else sampleExchange 200)
          (fun _ => false)) 2 (by decide) (by decide) (by decide) (fun _ _ => rfl)
    have h3 : attemptCount es = 3 := hL 2 (by decide) (by decide)
    rw [h3] at hst
    have h200 : st = 200 := by rw [hst]; decide
    subst h200
    exact ⟨w', es, e, h3, by simpa [sampleWorld] using tr⟩
  · obtain ⟨st, w', es, e, tr, hL, -, -, hst⟩ :=
      C2_retries_only_transient_within_budget sampleConfig sampleRequest
        (sampleWorld (fun i => if i < 2 then sampleExchange 503 else sampleExchange 200)
          (fun _ => false)) 1 (by decide) (by decide) (by decide) (fun _ _ => rfl)
    have h2 : attemptCount es = 2 := hL 2 (by decide) (by decide)
    rw [h2] at hst
    have h503 : st = 503 := by rw [hst]; decide
    subst h503
    exact ⟨w', es, e, h2, by simpa [sampleWorld] using tr⟩
  · obtain ⟨st, w', es, e, tr, hL, -, -, hst⟩ :=
      C2_retries_only_transient_within_budget sampleConfig sampleRequest
        (sampleWorld (fun _ => sampleExchange 404) (fun _ => false)) 5
        (by decide) (by decide) (by decide) (fun _ _ => rfl)
    have h1 : attemptCount es = 1 := hL 0 (by decide) (by decide)
    rw [h1] at hst
    have h404 : st = 404 := by rw [hst]; decide
    subst h404
    exact ⟨w', es, e, h1, by simpa [sampleWorld] using tr⟩

/-- C3: if cancel-on-thread-stop is enabled and the stop request is first
observed at the `k`-th retry boundary (`k >= 1`: the first `k` attempts yield
transient statuses, `k <= maxRetries`, the first `k - 1` polls of the stop flag
are negative and the `k`-th is positive), `SendRequest` returns
`HttpStatus::NotFound` after exactly `k` attempts, whatever `maxRetries` is:
the run ends with the cooldown sleep of that boundary. -/
theorem C3_cancellation_stops_retries (K : Config) (requestWriter : HttpRequestWriter)
    (w : World) (maxRetries : Int) (k : Nat)
    (hk : 1 ≤ k) (hbudget : (k : Int) ≤ maxRetries)
    (hm : requestWriter.method.supported = true)
    (ho : w.responseContentStream.canOpen = true)
    (hcancel : w.client.cancelOnThreadStopRequested = true)
    (htrans : ∀ i, i < k → isRetryStatus K (attemptStatus K (w.transport i)) = true)
    (hbefore : ∀ i, i + 1 < k → w.stopRequested i = false)
    (hstop : w.stopRequested (k - 1) = true) :
    ∃ w' es,
      SendRequest K requestWriter maxRetries w = some (.ok (HttpStatus.NotFound, w')) ∧
      w'.trace = w.trace ++ es ∧
      attemptCount es = k ∧
      exchangesOf es = (List.range k).map w.transport ∧
      es.getLast? = some (Event.sleep K.retryCooldown) := by
  obtain ⟨w1, h, e1, t1, q1, r1, c1, o1, a1, -⟩ := InternalSendRequest_ok K requestWriter w hm ho
  have hst : ∀ i, statusAt K (attemptStatus K (w.transport 0)) w1.transport i =
      attemptStatus K (w.transport i) := by
    intro i
    cases i with
    | zero => rfl
    | succ i => simp [statusAt, t1]
  obtain ⟨w', es, e', tr', st'⟩ := retryLoop_cancel K requestWriter maxRetries hm (k - 1)
    maxRetries.toNat 0 (attemptStatus K (w.transport 0)) w1 o1 (a1.trans hcancel)
    (fun i hi => by rw [q1]; exact hbefore i (by omega)) (by rw [q1]; exact hstop)
    (by omega) (fun i hi => by rw [hst]; exact htrans i (by omega)) (by omega)
  have hfun : w1.transport = fun i => w.transport (i + 1) := funext t1
  have hx : exchangesOf (Event.perform h w.responseContentStream.content (w.transport 0) :: es) =
      (List.range k).map w.transport := by
    obtain ⟨k, rfl⟩ : ∃ k', k = k' + 1 := ⟨k - 1, by omega⟩
    simp only [exchangesOf, List.map_cons, st', Event.step, List.filterMap_cons,
      Step.exchangeOf, List.filterMap_append, retrySteps_exchanges, hfun, List.filterMap_nil,
      List.append_nil, Nat.add_sub_cancel]
    rw [List.range_succ_eq_map]
    simp [List.map_map, Function.comp_def]
  refine ⟨w', Event.perform h w.responseContentStream.content (w.transport 0) :: es,
    ?_, ?_, ?_, hx, ?_⟩
  · simp only [SendRequest, e1]
    rw [e']
  · rw [tr', r1]; simp
  · simp [attemptCount, hx]
  · have hlast : (es.map Event.step).getLast? = some (Step.sleep K.retryCooldown) := by
      rw [st']; simp
    rcases hes : es.getLast? with _ | e
    · rw [List.getLast?_eq_none_iff] at hes
      subst hes
      simp at hlast
    · have : (es.map Event.step).getLast? = some e.step := by
        rw [List.getLast?_map, hes]; rfl
      rw [this] at hlast
      cases e with
      | perform _ _ _ => simp [Event.step] at hlast
      | sleep d =>
        simp only [Event.step, Option.some.injEq, Step.sleep.injEq] at hlast
        cases es with
        | nil => simp at hes
        | cons e0 es0 => rw [List.getLast?_cons_cons, hes, hlast]

/-- C3 at a concrete input: every attempt answers 503, `maxRetries = 5`, and the
stop request is first observed at the second retry boundary: two attempts. -/
theorem C3_cancellation_stops_retries_witness :
    ∃ w' es,
      SendRequest sampleConfig sampleRequest 5
          (sampleWorld (fun _ => sampleExchange 503) (fun i => decide (i = 1))) =
        some (.ok (HttpStatus.NotFound, w')) ∧
      w'.trace =
        (sampleWorld (fun _ => sampleExchange 503) (fun i => decide (i = 1))).trace ++ es ∧
      attemptCount es = 2 ∧
      exchangesOf es = (List.range 2).map
        (sampleWorld (fun _ => sampleExchange 503) (fun i => decide (i = 1))).transport ∧
      es.getLast? = some (Event.sleep sampleConfig.retryCooldown) :=
  C3_cancellation_stops_retries sampleConfig sampleRequest
    (sampleWorld (fun _ => sampleExchange 503) (fun i => decide (i = 1))) 5 2
    (by decide) (by decide) (by decide) (by decide) (by decide)
    (fun _ _ => (by decide :
      isRetryStatus sampleConfig (attemptStatus sampleConfig (sampleExchange 503)) = true))
    (fun i hi => by
      have h0 : i = 0 := by omega
      subst h0
      decide)
    (by decide)

/-- C4: when the raw completion code is success (0) or `CURLE_PARTIAL_FILE`, an
attempt returns, and the unified status it returns is exactly the reported
HTTP status. -/
theorem C4_status_passes_through (K : Config) (requestWriter : HttpRequestWriter) (w : World)
    (hm : requestWriter.method.supported = true)
    (ho : w.responseContentStream.canOpen = true)
    (hr : (w.transport 0).performResult = 0 ∨
      (w.transport 0).performResult = CURLE_PARTIAL_FILE) :
    ∃ w', InternalSendRequest K requestWriter w = .ok ((w.transport 0).responseCode, w') := by
  obtain ⟨w', -, e, -⟩ := InternalSendRequest_ok K requestWriter w hm ho
  refine ⟨w', ?_⟩
  rw [e]
  rcases hr with h | h <;> simp [attemptStatus, classify, h, CURLE_PARTIAL_FILE]

/-- C4 at a concrete input: a partial file with the reported status 200 yields
the unified status 200. -/
theorem C4_status_passes_through_witness :
    ∃ w', InternalSendRequest sampleConfig sampleRequest
        (sampleWorld (fun _ => { sampleExchange 200 with performResult := CURLE_PARTIAL_FILE })
          (fun _ => false)) = .ok ((200 : Int), w') :=
  C4_status_passes_through sampleConfig sampleRequest
    (sampleWorld (fun _ => { sampleExchange 200 with performResult := CURLE_PARTIAL_FILE })
      (fun _ => false)) (by decide) (by decide) (Or.inr rfl)

/-- C5: when the raw completion code is neither 0 nor `CURLE_PARTIAL_FILE`, an
attempt returns; its unified status is `Nebula3CurlEasyPerformFailed` if the
reported HTTP status is 200 or 0, and the reported status otherwise; so, for a
reported status other than the number of the synthetic code itself, the unified
status is the synthetic code if and only if the reported status is 200 or 0. -/
theorem C5_failure_status (K : Config) (requestWriter : HttpRequestWriter) (w : World)
    (hm : requestWriter.method.supported = true)
    (ho : w.responseContentStream.canOpen = true)
    (hr0 : (w.transport 0).performResult ≠ 0)
    (hr1 : (w.transport 0).performResult ≠ CURLE_PARTIAL_FILE) :
    ∃ httpStatus w', InternalSendRequest K requestWriter w = .ok (httpStatus, w') ∧
      httpStatus =
        (if (w.transport 0).responseCode = HttpStatus.OK ∨ (w.transport 0).responseCode = 0
          then K.Nebula3CurlEasyPerformFailed else (w.transport 0).responseCode) ∧
      ((w.transport 0).responseCode ≠ K.Nebula3CurlEasyPerformFailed →
        (httpStatus = K.Nebula3CurlEasyPerformFailed ↔
          ((w.transport 0).responseCode = HttpStatus.OK ∨ (w.transport 0).responseCode = 0))) := by
  obtain ⟨w', -, e, -⟩ := InternalSendRequest_ok K requestWriter w hm ho
  have hst : attemptStatus K (w.transport 0) =
      (if (w.transport 0).responseCode = HttpStatus.OK ∨ (w.transport 0).responseCode = 0
        then K.Nebula3CurlEasyPerformFailed else (w.transport 0).responseCode) := by
    simp only [attemptStatus, classify, Ne.symm hr1, if_false, Ne.symm hr0, ne_eq, not_false_eq_true,
      if_true]
    by_cases h : (w.transport 0).responseCode = HttpStatus.OK ∨ (w.transport 0).responseCode = 0
    · have h' : HttpStatus.OK = (w.transport 0).responseCode ∨ 0 = (w.transport 0).responseCode :=
        h.imp Eq.symm Eq.symm
      simp only [h, h', if_true]
    · have h' : ¬ (HttpStatus.OK = (w.transport 0).responseCode ∨
          0 = (w.transport 0).responseCode) := fun hh => h (hh.imp Eq.symm Eq.symm)
      simp only [h, h', if_false]
  refine ⟨_, w', e, hst, ?_⟩
  intro hne
  rw [hst]
  by_cases h : (w.transport 0).responseCode = HttpStatus.OK ∨ (w.transport 0).responseCode = 0
  · simp only [h, if_true]
  · simp only [h, if_false, iff_false]
    exact hne

/-- C5 at a concrete input: a transport failure (`CURLE_RECV_ERROR`, 56) with
the reported status 200 yields the synthetic status. -/
theorem C5_failure_status_witness :
    ∃ httpStatus w', InternalSendRequest sampleConfig sampleRequest
        (sampleWorld (fun _ => { sampleExchange 200 with performResult := 56 })
          (fun _ => false)) = .ok (httpStatus, w') ∧
      httpStatus = sampleConfig.Nebula3CurlEasyPerformFailed := by
  obtain ⟨st, w', e, hst, -⟩ := C5_failure_status sampleConfig sampleRequest
    (sampleWorld (fun _ => { sampleExchange 200 with performResult := 56 }) (fun _ => false))
    (by decide) (by decide) (by decide) (by decide)
  exact ⟨st, w', e, by rw [hst]; decide⟩

/-- C6: `modifyUrlToHttps` equals the reference. For every text `s`: if `s`
contains `"http://"`, it has a leftmost occurrence, and the result is `s` with
that occurrence replaced by `"https://"`, the text before and after it
unchanged; if `s` does not contain `"http://"`, the result is `s`. In
particular `"http://example.com/x"` becomes `"https://example.com/x"`, and
`"https://example.com/x"` and the relative URL `"/x/y"` are left unchanged. -/
theorem C6_modifyUrlToHttps_reference (s : List Char) :
    (∀ a b, s = a ++ httpScheme ++ b →
      (∀ a' b', s = a' ++ httpScheme ++ b' → a.length ≤ a'.length) →
      modifyUrlToHttps s = a ++ httpsScheme ++ b) ∧
    ((∃ a b, s = a ++ httpScheme ++ b) →
      ∃ a b, s = a ++ httpScheme ++ b ∧
        (∀ a' b', s = a' ++ httpScheme ++ b' → a.length ≤ a'.length) ∧
        modifyUrlToHttps s = a ++ httpsScheme ++ b) ∧
    ((¬ ∃ a b, s = a ++ httpScheme ++ b) → modifyUrlToHttps s = s) ∧
    modifyUrlToHttps "http://example.com/x".toList = "https://example.com/x".toList ∧
    modifyUrlToHttps "https://example.com/x".toList = "https://example.com/x".toList ∧
    modifyUrlToHttps "/x/y".toList = "/x/y".toList := by
  refine ⟨?_, ?_, ?_, by decide, by decide, by decide⟩
  · intro a b hs hleft
    rcases hf : strFind httpScheme s with _ | p
    · exact absurd hs (strFind_none httpScheme s hf a b)
    · obtain ⟨a0, b0, hs0, ha0, hmin, hres⟩ := modifyUrlToHttps_of_find s p hf
      have h1 := hleft a0 b0 hs0
      have h2 := hmin a b hs
      have hlen : a.length = a0.length := by omega
      have heq : a ++ (httpScheme ++ b) = a0 ++ (httpScheme ++ b0) := by
        rw [← List.append_assoc, ← List.append_assoc, ← hs, ← hs0]
      obtain ⟨e1, e2⟩ := List.append_inj heq hlen
      have e3 : b = b0 := List.append_cancel_left e2
      rw [hres, e1, e3]
  · rintro ⟨a, b, hs⟩
    rcases hf : strFind httpScheme s with _ | p
    · exact absurd hs (strFind_none httpScheme s hf a b)
    · obtain ⟨a0, b0, hs0, ha0, hmin, hres⟩ := modifyUrlToHttps_of_find s p hf
      exact ⟨a0, b0, hs0, fun a' b' h' => by rw [ha0]; exact hmin a' b' h', hres⟩
  · intro hno
    rcases hf : strFind httpScheme s with _ | p
    · exact modifyUrlToHttps_of_none s hf
    · obtain ⟨a0, b0, hs0, -⟩ := modifyUrlToHttps_of_find s p hf
      exact absurd ⟨a0, b0, hs0⟩ hno

/-- C7, as stated, fails: the URL `https://a/?u=http://b` begins with
`"https://"` and is changed, to `https://a/?u=https://b`. -/
theorem C7_https_url_changed :
    httpsScheme <+: "https://a/?u=http://b".toList ∧
      modifyUrlToHttps "https://a/?u=http://b".toList = "https://a/?u=https://b".toList ∧
      modifyUrlToHttps "https://a/?u=http://b".toList ≠ "https://a/?u=http://b".toList := by
  decide

/-- C7, amended: for a URL that begins with `"https://"`, `modifyUrlToHttps`
keeps that prefix and rewrites the rest of the URL as it rewrites any text; the
URL is returned unchanged if and only if `"http://"` does not occur after the
prefix. -/
theorem C7_https_url_rewritten_after_scheme (t : List Char) :
    modifyUrlToHttps (httpsScheme ++ t) = httpsScheme ++ modifyUrlToHttps t ∧
      (modifyUrlToHttps (httpsScheme ++ t) = httpsScheme ++ t ↔
        ¬ ∃ a b, t = a ++ httpScheme ++ b) := by
  have h8 : httpsScheme.length = 8 := by decide
  have hfirst : modifyUrlToHttps (httpsScheme ++ t) = httpsScheme ++ modifyUrlToHttps t := by
    rcases hf : strFind httpScheme t with _ | p
    · simp [modifyUrlToHttps, strFind_https, hf]
    · simp only [modifyUrlToHttps, strFind_https, hf, Option.map_some', strReplace]
      have e1 : (httpsScheme ++ t).take (p + 8) = httpsScheme ++ t.take p := by
        rw [List.take_append_eq_append_take, h8]
        have : httpsScheme.take (p + 8) = httpsScheme := List.take_of_length_le (by omega)
        simp [this]
      have e2 : (httpsScheme ++ t).drop (p + 8 + 7) = t.drop (p + 7) := by
        rw [List.drop_append_eq_append_drop, h8]
        have : httpsScheme.drop (p + 8 + 7) = [] := List.drop_of_length_le (by omega)
        rw [this]
        have : p + 8 + 7 - 8 = p + 7 := by omega
        simp [this]
      rw [e1, e2]
      simp
  refine ⟨hfirst, ?_⟩
  rw [hfirst, List.append_cancel_left_eq]
  constructor
  · rintro h ⟨a, b, hab⟩
    rcases hf : strFind httpScheme t with _ | p
    · exact strFind_none httpScheme t hf a b hab
    · obtain ⟨a0, b0, hs0, -, -, hres⟩ := modifyUrlToHttps_of_find t p hf
      have := congrArg List.length (hres.symm.trans (h.trans hs0))
      have h7 : httpScheme.length = 7 := by decide
      simp only [List.length_append, h8, h7] at this
      omega
  · intro hno
    rcases hf : strFind httpScheme t with _ | p
    · exact modifyUrlToHttps_of_none t hf
    · obtain ⟨a0, b0, hs0, -⟩ := modifyUrlToHttps_of_find t p hf
      exact absurd ⟨a0, b0, hs0⟩ hno

/-- C8: a call of `SendRequest` with a supported method and a response stream
that opens returns, whatever the statuses of the attempts and the stop flag
are; every attempt after attempt 0 starts with an empty response stream (the
stream was truncated to size 0 before it, so no byte of an earlier attempt is
left), and when the call ends with a retry attempt (at least one retry, no
cancellation) the stream holds exactly the bytes that attempt wrote. -/
theorem C8_sink_reset_between_attempts (K : Config) (requestWriter : HttpRequestWriter)
    (maxRetries : Int) (w : World)
    (hm : requestWriter.method.supported = true)
    (ho : w.responseContentStream.canOpen = true) :
    ∃ httpStatus w' h0 es,
      SendRequest K requestWriter maxRetries w = some (.ok (httpStatus, w')) ∧
      w'.trace = w.trace ++
        Event.perform h0 w.responseContentStream.content (w.transport 0) :: es ∧
      (∀ h sinkAtStart x, Event.perform h sinkAtStart x ∈ es → sinkAtStart = []) ∧
      (∀ h sinkAtStart x, es.getLast? = some (Event.perform h sinkAtStart x) →
        w'.responseContentStream.content = written x.chunks) := by
  obtain ⟨w1, h, e1, -, -, r1, -, o1, -⟩ := InternalSendRequest_ok K requestWriter w hm ho
  obtain ⟨st', w', es, e', tr', hall, hlast, -⟩ := retryLoop_sink K requestWriter maxRetries hm
    maxRetries.toNat 0 (attemptStatus K (w.transport 0)) w1 o1 (by omega)
  refine ⟨st', w', h, es, ?_, ?_, hall, hlast⟩
  · simp only [SendRequest, e1]
    rw [e']
  · rw [tr', r1]; simp

/-- C8 at a concrete input: the statuses 503, 503, 200 with `maxRetries = 2`. -/
theorem C8_sink_reset_between_attempts_witness :
    ∃ httpStatus w' h0 es,
      SendRequest sampleConfig sampleRequest 2
          (sampleWorld (fun i => if i < 2 then sampleExchange 503 else sampleExchange 200)
            (fun _ => false)) = some (.ok (httpStatus, w')) ∧
      w'.trace =
        (sampleWorld (fun i => if i < 2 then sampleExchange 503 else sampleExchange 200)
          (fun _ => false)).trace ++
        Event.perform h0
          (sampleWorld (fun i => if i < 2 then sampleExchange 503 else sampleExchange 200)
            (fun _ => false)).responseContentStream.content
          ((sampleWorld (fun i => if i < 2 then sampleExchange 503 else sampleExchange 200)
            (fun _ => false)).transport 0) :: es ∧
      (∀ h sinkAtStart x, Event.perform h sinkAtStart x ∈ es → sinkAtStart = []) ∧
      (∀ h sinkAtStart x, es.getLast? = some (Event.perform h sinkAtStart x) →
        w'.responseContentStream.content = written x.chunks) :=
  C8_sink_reset_between_attempts sampleConfig sampleRequest 2
    (sampleWorld (fun i => if i < 2 then sampleExchange 503 else sampleExchange 200)
      (fun _ => false)) (by decide) (by decide)

/-- The scenario of the specification, evaluated: with the statuses 503, 503,
200 and `maxRetries = 2` the call returns 200 after three attempts and two
sleeps, the second and third attempt start with an empty response stream, and
the stream ends with the four bytes of the third attempt only. -/
theorem scenario_503_503_200 :
    statusOf (SendRequest sampleConfig sampleRequest 2
      (sampleWorld (fun i => if i < 2 then sampleExchange 503 else sampleExchange 200)
        (fun _ => false))) = some 200 ∧
    (worldOf (SendRequest sampleConfig sampleRequest 2
      (sampleWorld (fun i => if i < 2 then sampleExchange 503 else sampleExchange 200)
        (fun _ => false)))).map (fun w => w.trace.map Event.step) =
      some [Step.attempt [7, 7] (sampleExchange 503), Step.sleep 5,
        Step.attempt [] (sampleExchange 503), Step.sleep 5,
        Step.attempt [] (sampleExchange 200)] ∧
    (worldOf (SendRequest sampleConfig sampleRequest 2
      (sampleWorld (fun i => if i < 2 then sampleExchange 503 else sampleExchange 200)
        (fun _ => false)))).map (fun w => w.responseContentStream.content) =
      some [1, 2, 3, 9] := by
  decide!

/-- C9 fails on the cancellation exit. A fresh client, every attempt answering
503 after one unit of time, `maxRetries = 1`, a cooldown of 5, and the thread
asked to stop: `SendRequest` returns `HttpStatus::NotFound` at time 6 with
`lastRequestTime` still 0, the value `Connect` left at the start of the first
attempt, so `GetIdleTime()` right after the call is 6, not 0. When the thread is
not asked to stop, the same call returns at time 7 with `lastRequestTime = 7`. -/
theorem C9_cancellation_skips_timestamp :
    statusOf (SendRequest sampleConfig sampleRequest 1
      (sampleWorld (fun _ => sampleExchange 503) (fun _ => true))) = some HttpStatus.NotFound ∧
    (worldOf (SendRequest sampleConfig sampleRequest 1
      (sampleWorld (fun _ => sampleExchange 503) (fun _ => true)))).map
        (fun w => (w.client.lastRequestTime, w.client.idleTimer.GetTime, w.client.GetIdleTime)) =
      some (0, 6, 6) ∧
    (worldOf (SendRequest sampleConfig sampleRequest 1
      (sampleWorld (fun _ => sampleExchange 503) (fun _ => false)))).map
        (fun w => (w.client.lastRequestTime, w.client.idleTimer.GetTime, w.client.GetIdleTime)) =
      some (7, 7, 0) := by
  decide!

/-- C10, as stated, fails: on a fresh client, whose effective URL is empty, an
attempt for `http://a/b` whose effective-URL query fails leaves the effective
URL `http://a/b`, not the value before the attempt. -/
theorem C10_effective_url_not_retained :
    (sampleWorld (fun _ => { sampleExchange 200 with effectiveUrlResult := 1 })
      (fun _ => false)).client.GetEffectiveUrl = [] ∧
    (attemptWorldOf (InternalSendRequest sampleConfig sampleRequest
      (sampleWorld (fun _ => { sampleExchange 200 with effectiveUrlResult := 1 })
        (fun _ => false)))).map (fun w => w.client.GetEffectiveUrl) =
      some "http://a/b".toList := by
  decide!

/-- C10, amended: an attempt with a supported method and a response stream that
opens returns. If the effective-URL query succeeds and yields a URL,
`GetEffectiveUrl()` afterwards is that URL; otherwise it is the value the
connect step of the attempt left: the value before the attempt if the session
was connected, the URI of the request if the attempt had to connect.
Independently, if the redirect-count query succeeds, `GetRedirectCount()`
afterwards is the reported count, otherwise its value before the attempt. -/
theorem C10_effective_url_and_redirect_count (K : Config) (requestWriter : HttpRequestWriter)
    (w : World)
    (hm : requestWriter.method.supported = true)
    (ho : w.responseContentStream.canOpen = true) :
    ∃ httpStatus w', InternalSendRequest K requestWriter w = .ok (httpStatus, w') ∧
      (∀ u, (w.transport 0).effectiveUrlResult = CURLE_OK →
        (w.transport 0).effectiveUrl = some u → w'.client.GetEffectiveUrl = u) ∧
      (((w.transport 0).effectiveUrlResult ≠ CURLE_OK ∨ (w.transport 0).effectiveUrl = none) →
        w'.client.GetEffectiveUrl =
          (if w.client.IsConnected then w.client.GetEffectiveUrl else requestWriter.uri)) ∧
      ((w.transport 0).redirectCountResult = CURLE_OK →
        w'.client.GetRedirectCount = (w.transport 0).redirectCount) ∧
      ((w.transport 0).redirectCountResult ≠ CURLE_OK →
        w'.client.GetRedirectCount = w.client.GetRedirectCount) := by
  obtain ⟨w', -, e, -, -, -, -, -, -, -, hu, hr⟩ := InternalSendRequest_ok K requestWriter w hm ho
  refine ⟨_, w', e, ?_, ?_, ?_, ?_⟩
  · intro u h1 h2
    simp [GetEffectiveUrl, hu, effectiveUrlAfter, h1, h2]
  · intro h
    rw [GetEffectiveUrl, hu, effectiveUrlAfter]
    rcases h with h | h
    · rcases hx : (w.transport 0).effectiveUrl with _ | u
      · rfl
      · simp [Ne.symm h, GetEffectiveUrl]
    · simp [h, GetEffectiveUrl]
  · intro h
    simp [GetRedirectCount, hr, h]
  · intro h
    simp [GetRedirectCount, hr, Ne.symm h]

/-- C10, amended, at a concrete input: a connected session with the effective
URL `https://old/` and the redirect count 3, an attempt whose two queries fail. -/
theorem C10_effective_url_and_redirect_count_witness :
    ∃ httpStatus w', InternalSendRequest sampleConfig sampleRequest
        { sampleWorld (fun _ => { sampleExchange 200 with
              effectiveUrlResult := 1, redirectCountResult := 1 }) (fun _ => false) with
          client := { CurlHttpClient.new with
            curlHandle := some {}
            effectiveServerUrl := "https://old/".toList
            redirectResponseCount := 3 } } = .ok (httpStatus, w') ∧
      w'.client.GetEffectiveUrl = "https://old/".toList ∧
      w'.client.GetRedirectCount = 3 := by
  obtain ⟨st, w', e, -, h2, -, h4⟩ := C10_effective_url_and_redirect_count sampleConfig
    sampleRequest
    { sampleWorld (fun _ => { sampleExchange 200 with
          effectiveUrlResult := 1, redirectCountResult := 1 }) (fun _ => false) with
      client := { CurlHttpClient.new with
        curlHandle := some {}
        effectiveServerUrl := "https://old/".toList
        redirectResponseCount := 3 } } (by decide) (by decide)
  exact ⟨st, w', e, h2 (Or.inl (by decide)), h4 (by decide)⟩

/-! ## Headers, session lifecycle and cleanup -/

/-- The sample world with the sample body as request content stream. -/
def samplePostWorld (canMap : Bool) : World :=
  { client := CurlHttpClient.new
    responseContentStream := sampleSink
    requestContentStream := some (sampleBody canMap)
    slistNodes := 0
    transport := fun _ => sampleExchange 200
    stopRequested := fun _ => false
    trace := [] }


theorem ensureConnected_aux (rw : HttpRequestWriter) (w w1 : World)
    (h : ensureConnected rw w = .ok w1) :
    w1.responseContentStream = w.responseContentStream ∧
      w1.requestContentStream = w.requestContentStream ∧
      w1.slistNodes = w.slistNodes ∧
      w1.client.idleTimer.running =
        (if w.client.IsConnected then w.client.idleTimer.running else true) := by
  by_cases hc : w.client.IsConnected = true
  · simp only [ensureConnected, hc, Bool.not_true, Bool.false_eq_true, if_false,
      Except.ok.injEq] at h
    subst h
    simp [hc]
  · simp only [Bool.not_eq_true] at hc
    obtain ⟨c', e, -, -, -, -, hrun⟩ := Connect_ok w.client rw.uri hc
    simp only [ensureConnected, hc, Bool.not_false, if_true, e, Except.ok.injEq] at h
    subst h
    simp [hc, hrun]

theorem setUrlAndMethod_aux (rw : HttpRequestWriter) (w w2 : World)
    (h : setUrlAndMethod rw w = .ok w2) :
    w2.responseContentStream = w.responseContentStream ∧
      w2.requestContentStream = w.requestContentStream ∧
      w2.slistNodes = w.slistNodes ∧
      w2.client.idleTimer = w.client.idleTimer ∧
      w2.client.IsConnected = w.client.IsConnected := by
  unfold setUrlAndMethod at h
  rcases hmeth : rw.method with _ | _ | _ | _ | _ | _ | _ | _ | _ <;>
    simp only [hmeth, Except.ok.injEq, reduceCtorEq] at h <;>
    (subst h; simp)

theorem setupHeaders_aux (rw : HttpRequestWriter) (w w3 : World) (hd : List (List Char))
    (h : setupHeaders rw w = .ok (hd, w3)) :
    hd = buildHeaders rw w.requestContentStream ∧
      w3.responseContentStream = w.responseContentStream ∧
      w3.requestContentStream = w.requestContentStream ∧
      w3.slistNodes = w.slistNodes + hd.length ∧
      w3.client.idleTimer = w.client.idleTimer ∧
      w3.client.IsConnected = w.client.IsConnected ∧
      w3.client.curlHandle.map (fun h => h.HTTPHEADER) =
        w.client.curlHandle.map (fun _ => hd) := by
  unfold setupHeaders at h
  simp only [buildHeaders_ne_nil, if_false, Except.ok.injEq, Prod.mk.injEq] at h
  obtain ⟨h1, h2⟩ := h
  subst h1
  subst h2
  simp [Option.map_map, Function.comp_def]

theorem attachBody_aux (rw : HttpRequestWriter) (w : World) :
    (attachBody rw w).2.responseContentStream = w.responseContentStream ∧
      (attachBody rw w).2.slistNodes = w.slistNodes ∧
      (attachBody rw w).2.client.idleTimer = w.client.idleTimer ∧
      (attachBody rw w).2.client.IsConnected = w.client.IsConnected ∧
      (attachBody rw w).2.client.curlHandle.map (fun h => h.HTTPHEADER) =
        w.client.curlHandle.map (fun h => h.HTTPHEADER) ∧
      (attachBody rw w).2.requestContentStream =
        (if rw.method = HttpMethod.Post ∨ rw.method = HttpMethod.Put then
          w.requestContentStream.map fun rcs => (openBody rcs).2.2
        else w.requestContentStream) ∧
      (attachBody rw w).1 =
        (if rw.method = HttpMethod.Post ∨ rw.method = HttpMethod.Put then
          w.requestContentStream.bind fun rcs => (openBody rcs).1
        else none) := by
  unfold attachBody
  simp only
  split_ifs <;> simp [Option.map_map, Function.comp_def]

theorem openResponse_aux (w w5 : World) (h : openResponse w = .ok w5) :
    w5.responseContentStream.isOpen = true ∧
      w5.requestContentStream = w.requestContentStream ∧
      w5.slistNodes = w.slistNodes ∧
      w5.client.idleTimer = w.client.idleTimer ∧
      w5.client.IsConnected = w.client.IsConnected ∧
      w5.client.curlHandle.map (fun h => h.HTTPHEADER) =
        w.client.curlHandle.map (fun h => h.HTTPHEADER) := by
  unfold openResponse at h
  simp only at h
  split_ifs at h with ho
  simp only [Except.ok.injEq] at h
  subst h
  simp only [Bool.not_eq_true, Bool.not_eq_false'] at ho
  simp [Stream.Open, Stream.SetAccessMode, Option.map_map, Function.comp_def] at ho ⊢
  split_ifs at ho ⊢ with hc
  rfl

theorem exchange_aux (w : World) :
    w.exchange.responseContentStream.isOpen = w.responseContentStream.isOpen ∧
      w.exchange.requestContentStream = w.requestContentStream ∧
      w.exchange.slistNodes = w.slistNodes ∧
      w.exchange.client.idleTimer.running = w.client.idleTimer.running ∧
      w.exchange.client.IsConnected = w.client.IsConnected := by
  unfold World.exchange
  simp only
  split_ifs <;> simp [deliver_eq, Timer.elapse] <;> split_ifs <;> simp

theorem cleanup_aux (postData : Option (List Nat)) (headers : List (List Char)) (w w6 : World)
    (h : cleanup postData headers w = .ok w6) :
    w6.responseContentStream.isOpen = false ∧
      w6.slistNodes = w.slistNodes - headers.length ∧
      w6.requestContentStream =
        (if postData.isSome then w.requestContentStream.map fun rcs => rcs.Unmap.Close
        else w.requestContentStream) ∧
      w6.client.idleTimer = w.client.idleTimer ∧
      w6.client.IsConnected = w.client.IsConnected := by
  unfold cleanup releaseBody at h
  simp only at h
  split at h
  · exact absurd h (by simp)
  · rename_i w' hw'
    simp only [Except.ok.injEq] at h
    subst h
    split_ifs at hw' with hp hr <;> simp only [Except.ok.injEq, reduceCtorEq] at hw' <;> subst hw' <;>
      unfold freeHeaders closeResponse <;> split_ifs <;>
      simp_all [Stream.Close, Stream.IsOpen]

theorem update_idleTimer (x : Exchange) (c : CurlHttpClient) :
    (updateRedirectCount x (updateEffectiveUrl x c)).idleTimer = c.idleTimer := by
  unfold updateRedirectCount updateEffectiveUrl
  rcases x.effectiveUrl with _ | u <;> simp only <;> split_ifs <;> simp

/-- An attempt with a supported method and a response stream that opens: the
header list the transport is handed, and the streams, the header list and the
session when the attempt returns. -/
theorem InternalSendRequest_aux (K : Config) (rw : HttpRequestWriter) (w : World)
    (hm : rw.method.supported = true) (ho : w.responseContentStream.canOpen = true) :
    ∃ w' h, InternalSendRequest K rw w = .ok (attemptStatus K (w.transport 0), w') ∧
      w'.trace = w.trace ++ [Event.perform h w.responseContentStream.content (w.transport 0)] ∧
      h.HTTPHEADER = buildHeaders rw w.requestContentStream ∧
      w'.responseContentStream.isOpen = false ∧
      w'.slistNodes = w.slistNodes ∧
      w'.requestContentStream =
        (if rw.method = HttpMethod.Post ∨ rw.method = HttpMethod.Put then
          w.requestContentStream.map fun rcs =>
            if (openBody rcs).1.isSome then (openBody rcs).2.2.Unmap.Close else (openBody rcs).2.2
        else w.requestContentStream) ∧
      w'.client.IsConnected = true ∧
      w'.client.idleTimer.running =
        (if w.client.IsConnected then w.client.idleTimer.running else true) := by
  unfold InternalSendRequest
  obtain ⟨w1, e1, k1, -, -, c1⟩ := ensureConnected_ok rw w
  obtain ⟨n1, n2, n3, n4⟩ := ensureConnected_aux rw w w1 e1
  obtain ⟨w2, e2, k2, -⟩ := setUrlAndMethod_ok rw w1 hm
  obtain ⟨m1, m2, m3, m4, m5⟩ := setUrlAndMethod_aux rw w1 w2 e2
  obtain ⟨w3, e3, k3, -⟩ := setupHeaders_ok rw w2
  obtain ⟨-, s2, s3, s4, s5, s6, s7⟩ := setupHeaders_aux rw w2 w3 _ e3
  obtain ⟨k4, -⟩ := attachBody_kept rw w3
  obtain ⟨b1, b2, b3, b4, b5, b6, b7⟩ := attachBody_aux rw w3
  have hsome := attachBody_isSome rw w3
  have k04 : Kept w (attachBody rw w3).2 := kept_trans (kept_trans (kept_trans k1 k2) k3) k4
  obtain ⟨w5, e5, k5, -, q5, -⟩ := openResponse_ok (attachBody rw w3).2
    (by rw [k04.canOpen]; exact ho)
  obtain ⟨o1, o2, o3, o4, o5, o6⟩ := openResponse_aux _ w5 e5
  have k05 : Kept w w5 := kept_trans k04 k5
  have c5 : w5.client.IsConnected = true :=
    k5.connected (k4.connected (k3.connected (k2.connected c1)))
  obtain ⟨x1, x2, x3, x4, x5, x6, x7, x8, x9⟩ := exchange_facts w5
  obtain ⟨y1, y2, y3, y4, y5⟩ := exchange_aux w5
  obtain ⟨w6, e6, k6, -⟩ := cleanup_ok (attachBody rw w3).1 (buildHeaders rw w2.requestContentStream)
    ((w5.exchange.mapClient (updateEffectiveUrl (w5.transport 0))).mapClient
      (updateRedirectCount (w5.transport 0)))
    (by intro hp; simpa [x8, q5] using hsome hp)
  obtain ⟨z1, z2, z3, z4, z5⟩ := cleanup_aux _ _ _ w6 e6
  simp only [e1, e2, e3, e5, curl_easy_perform, e6]
  have ht0 : w5.transport 0 = w.transport 0 := k05.transport 0
  simp only [ht0] at k6 z1 z2 z3 z4 z5 x3 ⊢
  obtain ⟨-, -, -, a4⟩ := updateEffectiveUrl_frame (w.transport 0) w5.exchange.client
  obtain ⟨-, -, -, d4⟩ := updateRedirectCount_frame (w.transport 0)
    (updateEffectiveUrl (w.transport 0) w5.exchange.client)
  have hreq2 : w2.requestContentStream = w.requestContentStream := m2.trans n2
  have hhd : (w5.client.curlHandle.getD {}).HTTPHEADER = buildHeaders rw w.requestContentStream := by
    have h1 : w5.client.curlHandle.map (fun h => h.HTTPHEADER) =
        w2.client.curlHandle.map (fun _ => buildHeaders rw w2.requestContentStream) :=
      (o6.trans b5).trans s7
    have c2 : w2.client.IsConnected = true := k2.connected c1
    rcases h5 : w5.client.curlHandle with _ | h5v
    · simp [CurlHttpClient.IsConnected, h5] at c5
    · rcases h2 : w2.client.curlHandle with _ | h2v
      · simp [CurlHttpClient.IsConnected, h2] at c2
      · simp [h5, h2, hreq2] at h1 ⊢
        exact h1
  refine ⟨w6, w5.client.curlHandle.getD {}, rfl, ?_, hhd, z1, ?_, ?_, ?_, ?_⟩
  · rw [k6.trace]; simp [x3, k05.trace, k05.content]
  · rw [z2]
    simp only [World.mapClient_slistNodes, y3, o3, b2, s4, m3, n3, hreq2]
    omega
  · rw [z3]
    simp only [World.mapClient_requestContentStream, y2, o2, b6, b7, s3, hreq2]
    by_cases hpp : rw.method = HttpMethod.Post ∨ rw.method = HttpMethod.Put
    · simp only [hpp, if_true]
      rcases w.requestContentStream with _ | rcs
      · simp
      · by_cases hs : (openBody rcs).1.isSome = true <;> simp [hs]
    · simp [hpp]
  · apply k6.connected; simp [d4, a4, x6, c5]
  · rw [z4]
    simp only [World.mapClient_client]
    rw [update_idleTimer, y4, o4, b3, s5, m4, n4]


theorem buildHeaders_eq_spec (rw : HttpRequestWriter) (body : Option Stream) :
    buildHeaders rw body = specHeaders rw body := by
  have h6 : ∀ l : List Char, IsValid l = true ↔ l ≠ [] := by
    intro l; cases l <;> simp [IsValid]
  have h7 : IsValid ([] : List Char) = false := rfl
  have hcons : ∀ (c : Char) (l : List Char), IsValid (c :: l) = true := fun _ _ => rfl
  unfold buildHeaders specHeaders
  simp only [formatD, formatS, curl_slist_append, Stream.GetMediaType, Stream.GetSize]
  have hvt : IsValid rw.xAuthToken = true ↔ rw.xAuthToken ≠ [] := h6 _
  rcases body with _ | b
  · have h0 : (toString (0 : Int)).data = ['0'] := by decide
    by_cases ha : rw.cacheControlMaxAge > 0 <;> by_cases ht : rw.xAuthToken = [] <;>
      simp [ha, ht, hvt, hcons, h7, h0]
  · have hvm : IsValid b.mediaType = true ↔ b.mediaType ≠ [] := h6 _
    by_cases ha : rw.cacheControlMaxAge > 0 <;> by_cases ht : rw.xAuthToken = [] <;>
      by_cases hmt : b.mediaType = [] <;>
      simp [ha, ht, hmt, hvt, hvm, hcons, h7]


/-- C11: for every request descriptor the header list built for an attempt, the
list the transport is handed in that attempt, is exactly, in this order,
`Cache-Control: max-age=<n>` iff the max-age `n` is positive, `Content-Type:
<media type>` iff a body is present and declares a media type, `Content-Length:
<size>` with the size of the body, 0 without a body, `X-Auth-Token: <token>`
iff a token is present, `Connection: keep-alive`, `Keep-Alive: 300`; so it
contains a content length and both keep-alive headers and is never empty. -/
theorem C11_header_assembly (K : Config) (requestWriter : HttpRequestWriter) (w : World)
    (hm : requestWriter.method.supported = true)
    (ho : w.responseContentStream.canOpen = true) :
    buildHeaders requestWriter w.requestContentStream =
        specHeaders requestWriter w.requestContentStream ∧
      (∃ w' h, InternalSendRequest K requestWriter w =
          .ok (attemptStatus K (w.transport 0), w') ∧
        w'.trace = w.trace ++
          [Event.perform h w.responseContentStream.content (w.transport 0)] ∧
        h.HTTPHEADER = specHeaders requestWriter w.requestContentStream) ∧
      (∃ size : Int, "Content-Length: ".toList ++ (toString size).toList ∈
        buildHeaders requestWriter w.requestContentStream) ∧
      "Connection: keep-alive".toList ∈ buildHeaders requestWriter w.requestContentStream ∧
      "Keep-Alive: 300".toList ∈ buildHeaders requestWriter w.requestContentStream ∧
      buildHeaders requestWriter w.requestContentStream ≠ [] := by
  have hs := buildHeaders_eq_spec requestWriter w.requestContentStream
  obtain ⟨w', h, e, tr, hh, -⟩ := InternalSendRequest_aux K requestWriter w hm ho
  refine ⟨hs, ⟨w', h, e, tr, hh.trans hs⟩, ?_, ?_, ?_, buildHeaders_ne_nil _ _⟩
  · rw [hs]
    refine ⟨(match w.requestContentStream with
      | some b => (b.content.length : Int)
      | none => 0), ?_⟩
    simp [specHeaders]
  · rw [hs]; simp [specHeaders]
  · rw [hs]; simp [specHeaders]

/-- C11 at a concrete input: `POST http://a/b` with the max-age 60, the token
`t` and a body of three bytes of the media type `text/plain`. -/
theorem C11_header_assembly_witness :
    ∃ w' h, InternalSendRequest sampleConfig samplePost (samplePostWorld true) =
        .ok (attemptStatus sampleConfig ((samplePostWorld true).transport 0), w') ∧
      w'.trace = (samplePostWorld true).trace ++
        [Event.perform h (samplePostWorld true).responseContentStream.content
          ((samplePostWorld true).transport 0)] ∧
      h.HTTPHEADER =
        ["Cache-Control: max-age=60".toList, "Content-Type: text/plain".toList,
          "Content-Length: 3".toList, "X-Auth-Token: t".toList,
          "Connection: keep-alive".toList, "Keep-Alive: 300".toList] := by
  obtain ⟨-, ⟨w', h, e, tr, hh⟩, -⟩ := C11_header_assembly sampleConfig samplePost
    (samplePostWorld true) (by decide) (by decide)
  exact ⟨w', h, e, tr, hh.trans (by decide)⟩

/-- `Disconnect` leaves a session that is not connected and whose idle timer
does not run. -/
theorem Disconnect_state (c : CurlHttpClient) :
    c.Disconnect.IsConnected = false ∧ c.Disconnect.idleTimer.Running = false := by
  unfold CurlHttpClient.Disconnect
  simp only
  by_cases hr : c.idleTimer.Running = true <;> by_cases hc : c.IsConnected = true <;>
    simp [hr, hc, CurlHttpClient.IsConnected, Timer.Running, Timer.Stop] <;>
    simp_all [CurlHttpClient.IsConnected, Timer.Running, Timer.Stop]

/-- `Disconnect` changes nothing on a session that is not connected and whose
idle timer does not run. -/
theorem Disconnect_of_disconnected (c : CurlHttpClient)
    (hc : c.IsConnected = false) (hr : c.idleTimer.Running = false) : c.Disconnect = c := by
  simp [CurlHttpClient.Disconnect, hc, hr]

/-- C12: `IsConnected()` is true exactly when the transport handle is present;
`Connect` on a disconnected session returns true and leaves the session
connected with the idle timer running; for every session state, after
`Disconnect()` the session is not connected and the idle timer does not run;
`Disconnect` is idempotent, and it changes nothing on a disconnected session
(one freshly constructed, or one whose idle timer is stopped, as it is after
`Disconnect()`). -/
theorem C12_session_lifecycle :
    (∀ c : CurlHttpClient, c.IsConnected = true ↔ c.curlHandle ≠ none) ∧
    (∀ (c : CurlHttpClient) (uri : List Char), c.IsConnected = false →
      ∃ c', c.Connect uri = .ok (true, c') ∧ c'.IsConnected = true ∧
        c'.idleTimer.Running = true) ∧
    (∀ c : CurlHttpClient,
      c.Disconnect.IsConnected = false ∧ c.Disconnect.idleTimer.Running = false) ∧
    (∀ c : CurlHttpClient, c.Disconnect.Disconnect = c.Disconnect) ∧
    (∀ c : CurlHttpClient, c.IsConnected = false → c.idleTimer.Running = false →
      c.Disconnect = c) ∧
    CurlHttpClient.new.Disconnect = CurlHttpClient.new := by
  refine ⟨?_, ?_, Disconnect_state, ?_, Disconnect_of_disconnected, ?_⟩
  · intro c
    simp [CurlHttpClient.IsConnected, Option.isSome_iff_ne_none]
  · intro c uri hc
    obtain ⟨c', e, -, -, -, h1, h2⟩ := Connect_ok c uri hc
    exact ⟨c', e, h1, h2⟩
  · intro c
    exact Disconnect_of_disconnected _ (Disconnect_state c).1 (Disconnect_state c).2
  · exact Disconnect_of_disconnected _ rfl rfl


/-- The lifecycle of C12 on the session the constructor makes: it is not
connected, `Connect` connects it and starts the idle timer, and `Disconnect`
leaves it as it is. -/
theorem C12_session_lifecycle_witness :
    CurlHttpClient.new.IsConnected = false ∧
    (∃ c', CurlHttpClient.new.Connect "http://a/b".toList = .ok (true, c') ∧
      c'.IsConnected = true ∧ c'.idleTimer.Running = true) ∧
    CurlHttpClient.new.Disconnect = CurlHttpClient.new :=
  ⟨rfl, C12_session_lifecycle.2.1 _ _ rfl, C12_session_lifecycle.2.2.2.2.1 _ rfl rfl⟩

/-- The constructor leaves the idle timer stopped and the session disconnected. -/
theorem timerFollowsHandle_new : CurlHttpClient.new.TimerFollowsHandle := rfl

/-- `Connect` leaves the idle timer running and the session connected. -/
theorem timerFollowsHandle_Connect (c c' : CurlHttpClient) (uri : List Char) (b : Bool)
    (h : c.Connect uri = .ok (b, c')) : c'.TimerFollowsHandle := by
  by_cases hc : c.IsConnected = true
  · simp [CurlHttpClient.Connect, hc] at h
  · simp only [Bool.not_eq_true] at hc
    obtain ⟨c'', e, -, -, -, h1, h2⟩ := Connect_ok c uri hc
    rw [e] at h
    simp only [Except.ok.injEq, Prod.mk.injEq] at h
    obtain ⟨-, rfl⟩ := h
    simp [CurlHttpClient.TimerFollowsHandle, Timer.Running, h1, h2]

/-- `Disconnect` leaves the idle timer stopped and the session disconnected. -/
theorem timerFollowsHandle_Disconnect (c : CurlHttpClient) :
    c.Disconnect.TimerFollowsHandle := by
  obtain ⟨h1, h2⟩ := Disconnect_state c
  simp [CurlHttpClient.TimerFollowsHandle, h1, h2]

/-- An attempt leaves the idle timer running and the session connected, when it
starts in a state in which the timer follows the handle. -/
theorem timerFollowsHandle_attempt (K : Config) (rw : HttpRequestWriter) (w : World)
    (hm : rw.method.supported = true) (ho : w.responseContentStream.canOpen = true)
    (hi : w.client.TimerFollowsHandle) :
    ∃ st w', InternalSendRequest K rw w = .ok (st, w') ∧
      w'.responseContentStream.canOpen = true ∧
      w'.client.IsConnected = true ∧ w'.client.idleTimer.running = true := by
  obtain ⟨w', -, e, -, -, -, -, -, hc, hr⟩ := InternalSendRequest_aux K rw w hm ho
  obtain ⟨w'', -, e', -, -, -, -, ho', -⟩ := InternalSendRequest_ok K rw w hm ho
  have hw : w'' = w' := by
    rw [e] at e'
    simp only [Except.ok.injEq, Prod.mk.injEq, true_and] at e'
    exact e'.symm
  subst hw
  refine ⟨_, w'', e, ho', hc, ?_⟩
  rw [hr]
  by_cases hcon : w.client.IsConnected = true
  · simp only [hcon, if_true]
    have := hi
    simp only [CurlHttpClient.TimerFollowsHandle, Timer.Running, hcon] at this
    exact this
  · simp [hcon]

theorem n_sleep_session (w : World) (d : Int) :
    (n_sleep w d).client.IsConnected = w.client.IsConnected ∧
      (n_sleep w d).client.idleTimer.running = w.client.idleTimer.running := by
  unfold n_sleep
  constructor
  · simp
  · simp [Timer.elapse]; split_ifs <;> rfl

/-- The loop of `SendRequest` keeps the idle timer running and the session
connected. -/
theorem retryLoop_session (K : Config) (rw : HttpRequestWriter) (m : Int)
    (hm : rw.method.supported = true) :
    ∀ (fuel : Nat) (curRetry st : Int) (w : World),
      w.responseContentStream.canOpen = true → m - curRetry ≤ fuel →
      w.client.IsConnected = true → w.client.idleTimer.running = true →
      ∃ st' w', retryLoop K rw m fuel curRetry st w = some (.ok (st', w')) ∧
        w'.client.IsConnected = true ∧ w'.client.idleTimer.running = true := by
  intro fuel
  induction fuel with
  | zero =>
    intro curRetry st w _ hfuel hc hr
    have hcnd : (isRetryStatus K st && decide (curRetry < m)) = false := by
      have : ¬ curRetry < m := by push_cast at hfuel; omega
      simp [this]
    refine ⟨st, w.mapClient stampLastRequestTime, ?_, by simpa using hc, by simpa using hr⟩
    rw [retryLoop]; simp [hcnd]
  | succ fuel ih =>
    intro curRetry st w ho hfuel hc hr
    by_cases hcnd : (isRetryStatus K st && decide (curRetry < m)) = true
    · obtain ⟨s1, s2, s3, s4, s5⟩ := n_sleep_facts w K.retryCooldown
      obtain ⟨v1, v2⟩ := n_sleep_session w K.retryCooldown
      obtain ⟨p1, p2, p3, p4, p5, p6⟩ := pollStop_facts (n_sleep w K.retryCooldown)
      rcases hb : (pollStop (n_sleep w K.retryCooldown)).1 with _ | _
      · have hpair : pollStop (n_sleep w K.retryCooldown) =
            (false, (pollStop (n_sleep w K.retryCooldown)).2) := by
          rw [← hb]
        obtain ⟨st3, w3, e3, o3, c3, r3⟩ := timerFollowsHandle_attempt K rw
          ((pollStop (n_sleep w K.retryCooldown)).2.mapResponse fun s => s.SetSize 0) hm
          (by simp [Stream.SetSize, p5, s4, ho])
          (by simp [CurlHttpClient.TimerFollowsHandle, Timer.Running, p6, v1, v2, hc, hr])
        obtain ⟨st', w', e', hc', hr'⟩ := ih (curRetry + 1) st3 w3 o3
          (by push_cast at hfuel ⊢; omega) c3 r3
        refine ⟨st', w', ?_, hc', hr'⟩
        rw [retryLoop]
        simp only [hcnd, if_true]
        rw [hpair]
        simp only [e3]
        rw [e']
      · have hpair : pollStop (n_sleep w K.retryCooldown) =
            (true, (pollStop (n_sleep w K.retryCooldown)).2) := by
          rw [← hb]
        refine ⟨HttpStatus.NotFound, (pollStop (n_sleep w K.retryCooldown)).2, ?_, ?_, ?_⟩
        · rw [retryLoop]
          simp only [hcnd, if_true]
          rw [hpair]
        · rw [p6, v1, hc]
        · rw [p6, v2, hr]
    · refine ⟨st, w.mapClient stampLastRequestTime, ?_, by simpa using hc, by simpa using hr⟩
      rw [retryLoop]; simp [hcnd]

/-- `SendRequest` leaves the idle timer running and the session connected, when
it starts in a state in which the timer follows the handle. -/
theorem timerFollowsHandle_SendRequest (K : Config) (rw : HttpRequestWriter) (m : Int)
    (w : World)
    (hm : rw.method.supported = true) (ho : w.responseContentStream.canOpen = true)
    (hi : w.client.TimerFollowsHandle) :
    ∃ st w', SendRequest K rw m w = some (.ok (st, w')) ∧ w'.client.TimerFollowsHandle := by
  obtain ⟨st1, w1, e1, o1, c1, r1⟩ := timerFollowsHandle_attempt K rw w hm ho hi
  obtain ⟨st', w', e', hc', hr'⟩ := retryLoop_session K rw m hm m.toNat 0 st1 w1 o1
    (by omega) c1 r1
  refine ⟨st', w', ?_, ?_⟩
  · simp only [SendRequest, e1]
    rw [e']
  · simp [CurlHttpClient.TimerFollowsHandle, Timer.Running, hc', hr']


/-- The cleanup of an attempt: the response stream is closed and the header
list is freed; a request body of a POST or PUT that opened is closed again if
it mapped to a non-null pointer, and is left open if it mapped to the null
pointer; a body that did not open keeps its state. -/
theorem InternalSendRequest_cleanup (K : Config) (rw : HttpRequestWriter) (w : World)
    (hm : rw.method.supported = true) (ho : w.responseContentStream.canOpen = true) :
    ∃ st w', InternalSendRequest K rw w = .ok (st, w') ∧
      w'.responseContentStream.isOpen = false ∧
      w'.slistNodes = w.slistNodes ∧
      (∀ rcs, w.requestContentStream = some rcs →
        rw.method = HttpMethod.Post ∨ rw.method = HttpMethod.Put →
        ∃ rcs', w'.requestContentStream = some rcs' ∧
          (rcs.canOpen = true → rcs.canMap = true → rcs'.isOpen = false) ∧
          (rcs.canOpen = true → rcs.canMap = false → rcs'.isOpen = true) ∧
          (rcs.canOpen = false → rcs'.isOpen = rcs.isOpen)) := by
  obtain ⟨w', -, e, -, -, h1, h2, h3, -⟩ := InternalSendRequest_aux K rw w hm ho
  refine ⟨_, w', e, h1, h2, ?_⟩
  intro rcs hr hpp
  rw [h3, hr]
  simp only [hpp, if_true, Option.map_some']
  refine ⟨_, rfl, ?_, ?_, ?_⟩
  · intro hco hcm
    simp [openBody, Stream.Open, Stream.SetAccessMode, Stream.Map, Stream.Unmap, Stream.Close,
      hco, hcm]
  · intro hco hcm
    simp [openBody, Stream.Open, Stream.SetAccessMode, Stream.Map, hco, hcm]
  · intro hco
    simp [openBody, Stream.Open, Stream.SetAccessMode, hco]

/-- C13 fails when the request body opens and maps to the null pointer. The
request `POST http://a/b` with a body stream whose `Open()` succeeds and whose
`Map()` yields null: the attempt configures a zero-length body
(`CURLOPT_POSTFIELDSIZE` 0, `CURLOPT_POSTFIELDS` null), returns 200 with the
response stream closed and the header list freed, and afterwards the body
stream is still open. With a body that maps to a non-null pointer the same
attempt closes the body stream. -/
theorem C13_body_left_open :
    (attemptWorldOf (InternalSendRequest sampleConfig samplePost (samplePostWorld false))).map
        (fun w => (w.responseContentStream.isOpen, w.slistNodes,
          w.requestContentStream.map fun rcs => rcs.isOpen)) =
      some (false, 0, some true) ∧
    (attemptWorldOf (InternalSendRequest sampleConfig samplePost (samplePostWorld false))).map
        (fun w => w.client.curlHandle.map fun h => (h.POSTFIELDS, h.POSTFIELDSIZE)) =
      some (some (none, some 0)) ∧
    statusOf (some (InternalSendRequest sampleConfig samplePost (samplePostWorld false))) = some 200 ∧
    (attemptWorldOf (InternalSendRequest sampleConfig samplePost (samplePostWorld true))).map
        (fun w => (w.responseContentStream.isOpen, w.slistNodes,
          w.requestContentStream.map fun rcs => rcs.isOpen)) =
      some (false, 0, some false) := by
  decide!

end Http
